import Mathlib

/-!
# Verification of the Topologic dimensional-state / metadata-codec core

Shallow embedding of the Topologic core (include/topologic/parse.h, the
state chain in topologic/state.h, and the platform shells in
src/xstep/ios/iOSAppDelegate.mm) in Lean 4, together with theorems that
settle the testable properties of its specification.

Conventions used throughout:
* The C++ numeric base type `Q` (double / GLfloat) is modelled as `ℚ`;
  serialisation of a number and `std::stold` parsing of the result are
  exact, so "floats within tolerance" becomes plain equality.
* The per-dimension state ladder (`topologic::state<Q,d>` deriving from
  `state<Q,d-1>`) is modelled as a single record holding an indexed
  family of per-dimension slots, exactly as the spec's design notes
  suggest for a re-implementation.
* XML attribute names and element names are modelled by inductive types
  (one constructor per distinct source-level string); attribute values
  are modelled by `AttrVal`, which distinguishes a well-formed numeric
  literal, a numeric literal with a trailing non-numeric suffix (the
  `"<n>D"` depth literals emitted by `state<Q,2>::metadata`), and
  non-numeric text.  `std::stold`/`std::stoi` succeed on the first two
  and throw on the third; XPath numeric comparison (`[@depth = n]`)
  succeeds only on the first (`number("4D")` is NaN).
-/

/-- An RGBA colour, as in `efgy::colour::RGBA<Q>::value`. -/
structure RGBA where
  red : ℚ
  green : ℚ
  blue : ℚ
  alpha : ℚ
deriving DecidableEq, Repr

/-- The parameter bag `efgy::geometry::parameters<Q>` as used by the
sources.  The sources address both the `radius`/`precision` family (the
XML/JSON decoders) and the `polarRadius`/`polarPrecision` family (the
`state<Q,2>` constructor, `metadata()` and the iOS shell), so both
families are distinct fields here, exactly as in the library type. -/
structure Params where
  radius : ℚ
  radius2 : ℚ
  constantQ : ℚ
  precision : ℚ
  iterations : ℚ
  seed : ℚ
  functions : ℚ
  flameCoefficients : ℚ
  preRotate : Bool
  postRotate : Bool
  polarRadius : ℚ
  polarPrecision : ℚ
  vertexLimit : ℚ
deriving DecidableEq, Repr

/-- The id / depth / render-depth triple exposed by a bound
`topologic::renderer` (`id()`, `depth()`, `renderDepth()`).  The claims
exclude the renderer's object identity from state equality, so the
state model carries exactly this triple. -/
structure Renderer where
  rid : String
  depth : ℕ
  renderDepth : ℕ
deriving DecidableEq, Repr

/-- Per-dimension data of `topologic::state<Q,d>`: the polar camera
`fromp`, the cartesian camera `from` (called `fromc` here because `from`
is reserved in Lean), and the (d+1)×(d+1) transformation matrix. -/
structure DimSlot where
  fromp : ℕ → ℚ
  fromc : ℕ → ℚ
  matrix : ℕ → ℕ → ℚ

/-- The whole dimensional-state chain, flattened: `dims k` is the data
owned by `state<Q,k>`, and the remaining fields are the base-case
(`state<Q,2>`) members.  `idpfx` models the `idPrefix` string. -/
structure GState where
  dims : ℕ → DimSlot
  polarCoordinates : Bool
  parameter : Params
  exportMultiplier : ℚ
  background : RGBA
  wireframe : RGBA
  surface : RGBA
  model : Option Renderer
  idpfx : String

/-- Update the slot of dimension `k`, leaving every other dimension
untouched. -/
def updDim (k : ℕ) (f : DimSlot → DimSlot) (s : GState) : GState :=
  { s with dims := fun j => if j = k then f (s.dims j) else s.dims j }

/-- The 52-symbol cartesian axis alphabet
`"xyzwvutsrqponmlkjihgfedcbaZYXWVUTSRQPONMLKJIHGFEDCBA"` together with
its terminating NUL: the sources index it with `i < sizeof(...)`, i.e.
`i < 53`.  Only injectivity of the naming matters for the codec, so the
alphabet is kept abstract via the `AttrName.cart` constructor. -/
def cdimBound : ℕ := 53

/-- XML attribute names used by the Topologic metadata vocabulary.  Each
constructor stands for one distinct source-level attribute string:
`radius`, `theta-<i>`, the single letter `cartesianDimensions[i]`
(`cart i`), `d-<i>` (`dIdx i`), `mode`, `matrix`, `depth`, `eCell i j`
(= `e<i>-<j>`), `render-depth`, `type`, `format`, `red`, `green`,
`blue`, `alpha`, `polar`, `export-multiplier`, `id-prefix`,
`iterations`, `seed`, `functions`, `pre-rotate`, `post-rotate`,
`coefficients`. -/
inductive AttrName where
  | radius | theta (i : ℕ) | cart (i : ℕ) | dIdx (i : ℕ)
  | mode | matrix | depth | eCell (i j : ℕ) | renderDepth | type | format
  | red | green | blue | alpha
  | polar | exportMultiplier | idPre
  | iterations | seed | functions | preRotate | postRotate | coefficients
deriving DecidableEq, Repr

/-- The axis attribute name used at index `i`: the single letter
`cartesianDimensions[i]` when `i < sizeof(cartesianDimensions)`, else
`d-<i>` — both `metadata()` and the XML camera decode use exactly this
split. -/
def cdimName (i : ℕ) : AttrName :=
  if i < cdimBound then AttrName.cart i else AttrName.dIdx i

/-- An XML attribute value.  `num q` is a fully numeric literal, `numD q`
is a numeric literal with a trailing non-numeric suffix (such as the
`"3D"` depth values written by `metadata()`: `std::stoi`/`std::stold`
recover `3`, while XPath numeric comparison yields NaN), and `str` is
non-numeric text (`"polar"`, `"identity"`, `"yes"`, a malformed literal
such as `"abc"`, ...). -/
inductive AttrVal where
  | num (q : ℚ)
  | numD (q : ℚ)
  | str (s : String)
deriving DecidableEq, Repr

/-- `std::stold` on an attribute value: numeric (possibly suffixed)
literals parse, anything else throws (`none`). -/
def stold : AttrVal → Option ℚ
  | AttrVal.num q => some q
  | AttrVal.numD q => some q
  | AttrVal.str _ => none

/-- Truncation toward zero, the semantics of C++ `(int)` casts and of
the integer part recovered by `std::stoi`. -/
def qtrunc (q : ℚ) : Int :=
  Int.tdiv q.num (q.den : Int)

/-- `std::stoi` on an attribute value. -/
def stoiA : AttrVal → Option Int
  | AttrVal.num q => some (qtrunc q)
  | AttrVal.numD q => some (qtrunc q)
  | AttrVal.str _ => none

/-- Does this attribute value equal the given plain string?  (The C++
code compares the XPath string cast with `==`; a numeric literal never
equals the words compared against: `polar`, `identity`, `yes`.) -/
def AttrVal.isStrEq : AttrVal → String → Bool
  | AttrVal.str t, s => t == s
  | _, _ => false

/-- XPath numeric equality `@a = n`: the attribute's string value cast
to a number equals `n`.  A suffixed or non-numeric literal casts to NaN
and never compares equal. -/
def AttrVal.numEq : AttrVal → ℚ → Bool
  | AttrVal.num q, n => q == n
  | _, _ => false

/-- XML element names of the Topologic metadata vocabulary; `other` is
any element outside of it. -/
inductive ElemName where
  | camera | transformation | model | coordinates | options | precision
  | colourBackground | colourWireframe | colourSurface | ifs | flame
  | other (tag : ℕ)
deriving DecidableEq, Repr

/-- An XML element: name plus attribute list (in document order). -/
structure XElem where
  name : ElemName
  attrs : List (AttrName × AttrVal)

/-- A metadata document, modelled as the document-ordered list of the
elements in the Topologic namespace (they are siblings under the
designated metadata element, which is how both `metadata()` writes them
and how the sibling-iterating decode visits them). -/
abbrev XDoc := List XElem

/-- First value bound to an attribute name in an attribute list. -/
def listAttr : List (AttrName × AttrVal) → AttrName → Option AttrVal
  | [], _ => none
  | (a, v) :: rest, n => if a = n then some v else listAttr rest n

/-- Attribute lookup on an element (`parser.evaluate("@name")`; an empty
string result means the attribute is absent). -/
def XElem.attr (e : XElem) (n : AttrName) : Option AttrVal :=
  listAttr e.attrs n

/-- `count(@*)` of an element. -/
def XElem.attrCount (e : XElem) : ℕ := e.attrs.length

/-- The XPath scalar lookup `//topologic:elem/@attr`: the implicit
string cast takes the first attribute node in document order, i.e. the
attribute of the first element of that name that carries it. -/
def docAttr (doc : XDoc) (en : ElemName) (an : AttrName) : Option AttrVal :=
  (doc.filterMap (fun e => if e.name = en then e.attr an else none)).head?

/-- Sequence two stateful decode steps; the second runs only when the
first did not throw (an exception aborts everything that follows but
keeps the mutations already applied, since the C++ state is updated in
place by reference). -/
def seqD (f g : GState → GState × Bool) (s : GState) : GState × Bool :=
  match f s with
  | (s', true) => g s'
  | (s', false) => (s', false)

/-- Fold a throwing decode step over a list, aborting at the first
exception. -/
def foldD (f : α → GState → GState × Bool) : List α → GState → GState × Bool
  | [], s => (s, true)
  | x :: rest, s => seqD (f x) (foldD f rest) s

/-- Write `fromp[i]` of dimension `k`. -/
def setFromp (k i : ℕ) (q : ℚ) : GState → GState :=
  updDim k (fun sl => { sl with fromp := fun j => if j = i then q else sl.fromp j })

/-- Write `from[i]` of dimension `k`. -/
def setFromc (k i : ℕ) (q : ℚ) : GState → GState :=
  updDim k (fun sl => { sl with fromc := fun j => if j = i then q else sl.fromc j })

/-- Write `transformation.matrix[i][j]` of dimension `k`. -/
def setMat (k i j : ℕ) (q : ℚ) : GState → GState :=
  updDim k (fun sl =>
    { sl with matrix := fun a b => if a = i ∧ b = j then q else sl.matrix a b })

/-- The identity affine transformation that
`efgy::geometry::transformation::affine<Q,d>()` default-constructs.
Modelled from the spec: the `affine` default constructor is not under
src/; §4.1 describes the default transformation as identity-like and §8
states that decoding `matrix="identity"` resets the matrix to the
identity. -/
def idMat : ℕ → ℕ → ℚ := fun i j => if i = j then 1 else 0

/-- One iteration `i` of the XML camera attribute loop
(`topologic::parse`, camera loop): try `@radius` at `i = 0`, then
`@theta-<i>` (writing the polar vector), then the cartesian axis
attribute (single letter below the alphabet bound, `d-<i>` above it),
writing the cartesian vector.  A present but malformed literal makes
`std::stold` throw (`false`). -/
def camStep (k : ℕ) (e : XElem) (i : ℕ) (s : GState) : GState × Bool :=
  match i, e.attr AttrName.radius with
  | 0, some v =>
    match stold v with
    | some q => (setFromp k 0 q s, true)
    | none => (s, false)
  | _, _ =>
    match e.attr (AttrName.theta i) with
    | some v =>
      match stold v with
      | some q => (setFromp k i q s, true)
      | none => (s, false)
    | none =>
      if i < cdimBound then
        match e.attr (AttrName.cart i) with
        | some v =>
          match stold v with
          | some q => (setFromc k i q s, true)
          | none => (s, false)
        | none => (s, true)
      else
        match e.attr (AttrName.dIdx i) with
        | some v =>
          match stold v with
          | some q => (setFromc k i q s, true)
          | none => (s, false)
        | none => (s, true)

/-- The camera attribute loop, iterations `0 .. n-1` in order. -/
def camLoop (k : ℕ) (e : XElem) : ℕ → GState → GState × Bool
  | 0, s => (s, true)
  | n + 1, s => seqD (camLoop k e n) (camStep k e n) s

/-- The cameras visited at recursion level `k`:
`//topologic:camera[count(@*) = k]`, in document order (the sibling
iteration of the do/while loop). -/
def camFilter (k : ℕ) (doc : XDoc) : List XElem :=
  doc.filter (fun e => e.name == ElemName.camera && e.attrCount == k)

/-- `//topologic:transformation[@depth = k]` (XPath numeric equality on
the `depth` attribute). -/
def identFilter (k : ℕ) (doc : XDoc) : List XElem :=
  doc.filter (fun e =>
    e.name == ElemName.transformation &&
      ((e.attr AttrName.depth).map (fun v => v.numEq (k : ℚ))).getD false)

/-- One transformation element of the identity branch: reset the level-k
matrix when `@matrix` equals `"identity"`, otherwise no effect. -/
def identStep (k : ℕ) (e : XElem) (s : GState) : GState :=
  match e.attr AttrName.matrix with
  | some v =>
    if v.isStrEq "identity" then updDim k (fun sl => { sl with matrix := idMat }) s
    else s
  | none => s

/-- `//topologic:transformation[count(@*) = (k+1)²]`. -/
def cellFilter (k : ℕ) (doc : XDoc) : List XElem :=
  doc.filter (fun e =>
    e.name == ElemName.transformation && e.attrCount == (k + 1) * (k + 1))

/-- One `e<i>-<j>` cell of the matrix decode loop. -/
def cellStep (k : ℕ) (e : XElem) (ij : ℕ × ℕ) (s : GState) : GState × Bool :=
  match e.attr (AttrName.eCell ij.1 ij.2) with
  | some v =>
    match stold v with
    | some q => (setMat k ij.1 ij.2 q s, true)
    | none => (s, false)
  | none => (s, true)

/-- The `(i, j)` pairs of the nested matrix loop, `0 ≤ i, j ≤ k`, in
loop order. -/
def cellPairs (k : ℕ) : List (ℕ × ℕ) :=
  (List.range (k + 1)).flatMap (fun i => (List.range (k + 1)).map (fun j => (i, j)))

/-- Decode one full-matrix transformation element. -/
def cellElem (k : ℕ) (e : XElem) : GState → GState × Bool :=
  foldD (cellStep k e) (cellPairs k)

/-- The level-`k` body of the XML decode (`topologic::parse`, generic
case): the camera loop over all `k`-attribute cameras, then the
`matrix="identity"` branch, then the per-cell matrix branch. -/
def parseDim (k : ℕ) (doc : XDoc) : GState → GState × Bool :=
  seqD (foldD (fun e => camLoop k e k) (camFilter k doc)) <|
    seqD (fun s => ((identFilter k doc).foldl (fun t e => identStep k e t) s, true))
      (foldD (cellElem k) (cellFilter k doc))

/-- Apply a scalar numeric field of the 1D fix point: absent attribute
means no effect, a malformed literal throws. -/
def numField (doc : XDoc) (en : ElemName) (an : AttrName)
    (upd : ℚ → GState → GState) (s : GState) : GState × Bool :=
  match docAttr doc en an with
  | none => (s, true)
  | some v =>
    match stold v with
    | some q => (upd q s, true)
    | none => (s, false)

/-- Apply a word-comparison field of the 1D fix point (`mode == polar`,
`pre-rotate == yes`, ...): never throws. -/
def strFlag (doc : XDoc) (en : ElemName) (an : AttrName) (word : String)
    (upd : Bool → GState → GState) (s : GState) : GState × Bool :=
  match docAttr doc en an with
  | none => (s, true)
  | some v => (upd (v.isStrEq word) s, true)

/-- The 1D fix point of the XML decode (`topologic::parse`, `state<Q,1>`
overload): the dimension-independent scalars, applied in exactly the
source order. -/
def fixPoint (doc : XDoc) : GState → GState × Bool :=
  seqD (numField doc ElemName.precision AttrName.polar
      fun q s => { s with parameter.precision := q }) <|
  seqD (numField doc ElemName.options AttrName.radius
      fun q s => { s with parameter.radius := q }) <|
  seqD (strFlag doc ElemName.camera AttrName.mode "polar"
      fun b s => { s with polarCoordinates := b }) <|
  seqD (numField doc ElemName.colourBackground AttrName.red
      fun q s => { s with background.red := q }) <|
  seqD (numField doc ElemName.colourBackground AttrName.green
      fun q s => { s with background.green := q }) <|
  seqD (numField doc ElemName.colourBackground AttrName.blue
      fun q s => { s with background.blue := q }) <|
  seqD (numField doc ElemName.colourBackground AttrName.alpha
      fun q s => { s with background.alpha := q }) <|
  seqD (numField doc ElemName.colourWireframe AttrName.red
      fun q s => { s with wireframe.red := q }) <|
  seqD (numField doc ElemName.colourWireframe AttrName.green
      fun q s => { s with wireframe.green := q }) <|
  seqD (numField doc ElemName.colourWireframe AttrName.blue
      fun q s => { s with wireframe.blue := q }) <|
  seqD (numField doc ElemName.colourWireframe AttrName.alpha
      fun q s => { s with wireframe.alpha := q }) <|
  seqD (numField doc ElemName.colourSurface AttrName.red
      fun q s => { s with surface.red := q }) <|
  seqD (numField doc ElemName.colourSurface AttrName.green
      fun q s => { s with surface.green := q }) <|
  seqD (numField doc ElemName.colourSurface AttrName.blue
      fun q s => { s with surface.blue := q }) <|
  seqD (numField doc ElemName.colourSurface AttrName.alpha
      fun q s => { s with surface.alpha := q }) <|
  seqD (numField doc ElemName.ifs AttrName.iterations
      fun q s => { s with parameter.iterations := q }) <|
  seqD (numField doc ElemName.ifs AttrName.seed
      fun q s => { s with parameter.seed := q }) <|
  seqD (numField doc ElemName.ifs AttrName.functions
      fun q s => { s with parameter.functions := q }) <|
  seqD (strFlag doc ElemName.ifs AttrName.preRotate "yes"
      fun b s => { s with parameter.preRotate := b }) <|
  seqD (strFlag doc ElemName.ifs AttrName.postRotate "yes"
      fun b s => { s with parameter.postRotate := b })
    (numField doc ElemName.flame AttrName.coefficients
      fun q s => { s with parameter.flameCoefficients := q })

/-- The full XML metadata decode `topologic::parse(state<Q,d>&, parser)`
into a state whose top dimension is `d`: the generic per-dimension body
for dimensions `d, d-1, ..., 2`, then the 1D fix point. -/
def parseXML : ℕ → XDoc → GState → GState × Bool
  | 0, doc => fixPoint doc
  | 1, doc => fixPoint doc
  | k + 2, doc => seqD (parseDim (k + 2) doc) (parseXML (k + 1) doc)

/-- Attribute run built from consecutive indices `lo, lo+1, ...,
lo+n-1`: the shape of the `theta-<i>` and axis-letter attribute loops of
`metadata()`. -/
def natAttrs (g : ℕ → AttrName) (v : ℕ → AttrVal) (lo n : ℕ) :
    List (AttrName × AttrVal) :=
  (List.range n).map (fun j => (g (lo + j), v (lo + j)))

/-- The camera fragment `metadata()` emits for dimension `k` (`k ≥ 3`):
polar mode writes `radius` plus `theta-1 .. theta-(k-1)`, cartesian mode
writes one axis coordinate per `i < k`. -/
def encodeCamera (s : GState) (k : ℕ) : XElem :=
  if s.polarCoordinates then
    ⟨ElemName.camera,
      (AttrName.radius, AttrVal.num ((s.dims k).fromp 0)) ::
        natAttrs AttrName.theta (fun i => AttrVal.num ((s.dims k).fromp i)) 1 (k - 1)⟩
  else
    ⟨ElemName.camera,
      natAttrs cdimName (fun i => AttrVal.num ((s.dims k).fromc i)) 0 k⟩

/-- The four colour attributes written for one colour element. -/
def rgbaAttrs (c : RGBA) : List (AttrName × AttrVal) :=
  [(AttrName.red, AttrVal.num c.red), (AttrName.green, AttrVal.num c.green),
   (AttrName.blue, AttrVal.num c.blue), (AttrName.alpha, AttrVal.num c.alpha)]

/-- The base-case fragment `state<Q,2>::metadata()`: camera mode, the
bound model's triple (its `depth`/`render-depth` carry the `"<n>D"`
suffix, hence `numD`), options, precision, and the three colours — in
exactly this order.  Note that no `transformation` element and no
`coordinates` element is ever written. -/
def encodeBase (s : GState) : XDoc :=
  ⟨ElemName.camera,
    [(AttrName.mode,
      AttrVal.str (if s.polarCoordinates then "polar" else "cartesian"))]⟩ ::
  (match s.model with
   | some m =>
     [⟨ElemName.model,
       [(AttrName.type, AttrVal.str m.rid),
        (AttrName.depth, AttrVal.numD (m.depth : ℚ)),
        (AttrName.renderDepth, AttrVal.numD (m.renderDepth : ℚ))]⟩]
   | none => []) ++
  [⟨ElemName.options,
    [(AttrName.radius, AttrVal.num s.parameter.polarRadius),
     (AttrName.idPre, AttrVal.str s.idpfx)]⟩,
   ⟨ElemName.precision,
    [(AttrName.polar, AttrVal.num s.parameter.polarPrecision),
     (AttrName.exportMultiplier, AttrVal.num s.exportMultiplier)]⟩,
   ⟨ElemName.colourBackground, rgbaAttrs s.background⟩,
   ⟨ElemName.colourWireframe, rgbaAttrs s.wireframe⟩,
   ⟨ElemName.colourSurface, rgbaAttrs s.surface⟩]

/-- `state<Q,d>::metadata()` for top dimension `d`: one camera fragment
per dimension from `d` down to 3, then the base-case fragment. -/
def metadata (s : GState) : ℕ → XDoc
  | d + 3 => encodeCamera s (d + 3) :: metadata s (d + 2)
  | _ => encodeBase s

/-- The raw text of an attribute value, as consumed by the places that
assign the XPath string cast directly (`coordinates/@format`,
`model/@type`).  The decimal spelling of a numeric literal is never
compared against a model or format name, so it is collapsed to the
unmatchable marker `"#"`. -/
def avText : AttrVal → String
  | AttrVal.str s => s
  | AttrVal.num _ => "#"
  | AttrVal.numD _ => "#"

/-- Is the type in the set that `topologic::parseModel` (XML) bumps the
zero render-depth for?  Note the source's misspelling `"klein-bagle"`:
the correctly spelt model id `"klein-bagel"` is NOT in this set. -/
def closedBump (t : String) : Bool :=
  t == "sphere" || t == "moebius-strip" || t == "klein-bagle"

/-- The render-depth that the XML `parseModel` forwards to dispatch,
given the model type, the parsed `@depth`, and the parsed
`@render-depth` (`none` when the attribute is absent): absent defaults
to `depth`; only a parsed value of exactly 0 is reset to `depth` and
then incremented for the `closedBump` types. -/
def xmlForwardRd (t : String) (depth : Int) : Option Int → Int
  | some r => if r = 0 then (if closedBump t then depth + 1 else depth) else r
  | none =>
    if depth = 0 then (if closedBump t then depth + 1 else depth) else depth

/-- Outcome of the XML `parseModel` front half: either no
`model[@depth][@type]` element (return `false` without dispatching), an
uncaught `std::stoi` exception, or the request tuple
(format, type, depth, render-depth) handed to `efgy::geometry::with`. -/
inductive ModelReq where
  | noElem
  | thrown
  | found (fmt : String) (mtype : String) (depth : Int) (rdepth : Int)
deriving DecidableEq, Repr

/-- `//topologic:model[@depth][@type][1]`. -/
def findModelElem (doc : XDoc) : Option XElem :=
  doc.find? (fun e =>
    e.name == ElemName.model &&
      (e.attr AttrName.depth).isSome && (e.attr AttrName.type).isSome)

/-- The request computed by `topologic::parseModel` (XML): coordinate
format (default `"cartesian"`), model type, `std::stoi` of `@depth`, and
the defaulted render-depth. -/
def parseModelXMLReq (doc : XDoc) : ModelReq :=
  let fmt := match docAttr doc ElemName.coordinates AttrName.format with
    | some v => avText v
    | none => "cartesian"
  match findModelElem doc with
  | none => ModelReq.noElem
  | some e =>
    match (e.attr AttrName.depth).bind stoiA with
    | none => ModelReq.thrown
    | some depth =>
      let mtype := match e.attr AttrName.type with
        | some v => avText v
        | none => ""
      match e.attr AttrName.renderDepth with
      | some v =>
        match stoiA v with
        | none => ModelReq.thrown
        | some r => ModelReq.found fmt mtype depth (xmlForwardRd mtype depth (some r))
      | none => ModelReq.found fmt mtype depth (xmlForwardRd mtype depth none)

/-- One row of the compiled model factory table: type name, supported
source-dimension range, vector format. -/
structure ModelEntry where
  mname : String
  minDepth : Int
  maxDepth : Int
  fmt : String

/-- Does a table row match a request?  (Exact type-name and format
match, and the requested depth inside the row's supported range.) -/
def entryMatches (e : ModelEntry) (fmt mtype : String) (depth : Int) : Bool :=
  e.mname == mtype && e.fmt == fmt &&
    decide (e.minDepth ≤ depth) && decide (depth ≤ e.maxDepth)

/-- `topologic::updateModel::apply`: destroy and clear any bound
renderer, then construct and install the new one (its `id`/`depth`/
`renderDepth` are those of the instantiated wrapper); returns whether
the model pointer is non-null, i.e. `true`. -/
def applyModel (s : GState) (mtype : String) (depth rdepth : Int) :
    GState × Bool :=
  let s1 := { s with model := none }
  let s2 := { s1 with model := some ⟨mtype, depth.toNat, rdepth.toNat⟩ }
  (s2, s2.model.isSome)

/-- Model dispatch `efgy::geometry::with` specialised to the
`updateModel` functor.  Modelled from the spec: the scanning loop of
`efgy::geometry::with` lives in the external ef.gy headers, not under
src/; per §4.3 it scans the compiled (type × dimension-range × format)
table for an exact type-name match whose range includes the depth and
calls the functor's `apply` on the match.  The in-src functor
documentation states that `updateModel::pass` "is used instead of the
apply method whenever efgy::geometry::with was unable to find a matching
model/depth combination", and `pass` returns `out.model != 0` without
touching the state. -/
def resolve (table : List ModelEntry) (s : GState) (fmt mtype : String)
    (depth rdepth : Int) : GState × Bool :=
  if table.any (fun e => entryMatches e fmt mtype depth) then
    applyModel s mtype depth rdepth
  else
    (s, s.model.isSome)

/-- Modelled from the spec: the compiled model table (§3: a fixed,
compile-time-enumerated set of entries, immutable at runtime) for the
model types the spec names in §6/§8, in the cartesian vector format,
with the dimension bound 7 standing for the configured maximum depth.
`plane`, `moebius-strip` and `klein-bagel` are 2-dimensional surface
models (§8 clamps their depth to exactly 2). -/
def specModelTable : List ModelEntry :=
  [⟨"cube", 2, 7, "cartesian"⟩,
   ⟨"sphere", 2, 7, "cartesian"⟩,
   ⟨"plane", 2, 2, "cartesian"⟩,
   ⟨"moebius-strip", 2, 2, "cartesian"⟩,
   ⟨"klein-bagel", 2, 2, "cartesian"⟩,
   ⟨"torus", 2, 2, "cartesian"⟩]

/-- A JSON value tree, as in `efgy::json::value<>`. -/
inductive JValue where
  | null
  | bool (b : Bool)
  | number (q : ℚ)
  | str (s : String)
  | arr (xs : List JValue)
  | obj (kvs : List (String × JValue))

/-- Member access `value("key")`: the member of an object, or a null
value when absent or when the receiver is not an object. -/
def jGet : JValue → String → JValue
  | JValue.obj kvs, k =>
    match kvs.find? (fun kv => kv.1 == k) with
    | some kv => kv.2
    | none => JValue.null
  | _, _ => JValue.null

/-- `isArray()`. -/
def JValue.isArray : JValue → Bool
  | JValue.arr _ => true
  | _ => false

/-- `isNumber()` / `type == number`. -/
def JValue.isNumber : JValue → Bool
  | JValue.number _ => true
  | _ => false

/-- `isString()`. -/
def JValue.isString : JValue → Bool
  | JValue.str _ => true
  | _ => false

/-- `type == object`. -/
def JValue.isObj : JValue → Bool
  | JValue.obj _ => true
  | _ => false

/-- `type != null`. -/
def JValue.nonNull : JValue → Bool
  | JValue.null => false
  | _ => true

/-- The `(bool)` cast. -/
def JValue.toBool : JValue → Bool
  | JValue.bool b => b
  | _ => false

/-- The numeric cast (used only under `isNumber` guards). -/
def JValue.asNum : JValue → ℚ
  | JValue.number q => q
  | _ => 0

/-- The string cast `asString()` (used only under `isString` guards). -/
def JValue.asStr : JValue → String
  | JValue.str s => s
  | _ => ""

/-- `size()` of an array. -/
def JValue.size : JValue → ℕ
  | JValue.arr xs => xs.length
  | _ => 0

/-- The element list of an array value. -/
def JValue.arrList : JValue → List JValue
  | JValue.arr xs => xs
  | _ => []

/-- Array indexing `v[i]`. -/
def jIdx (v : JValue) (i : ℕ) : JValue :=
  (v.arrList).getD i JValue.null

/-- One camera row of the JSON per-dimension decode: a `k`-entry array
whose numeric entries land in the polar vector when the document's
top-level `polar` boolean is set, in the cartesian vector otherwise. -/
def jsonCamRow (k : ℕ) (polar : Bool) (c : JValue) (t : GState) : GState :=
  if c.isArray && (c.size == k) then
    (List.range k).foldl (fun t2 i =>
      if (jIdx c i).isNumber then
        if polar then setFromp k i ((jIdx c i).asNum) t2
        else setFromc k i ((jIdx c i).asNum) t2
      else t2) t
  else t

/-- One flattened transformation matrix of the JSON per-dimension
decode: applied cell by cell when the array has exactly (k+1)²
entries. -/
def jsonTransRow (k : ℕ) (tr : JValue) (t : GState) : GState :=
  if tr.isArray && (tr.size == (k + 1) * (k + 1)) then
    (cellPairs k).foldl (fun t2 ij =>
      if (jIdx tr (ij.1 * (k + 1) + ij.2)).isNumber then
        setMat k ij.1 ij.2 ((jIdx tr (ij.1 * (k + 1) + ij.2)).asNum) t2
      else t2) t
  else t

/-- The level-`k` body of the JSON decode (`topologic::parse` over
`efgy::json::value`): the top-level `polar` boolean selects which camera
vector receives each decoded coordinate; camera rows and flattened
transformation matrices of the matching size are applied in array
order. -/
def jsonDim (k : ℕ) (v : JValue) (s : GState) : GState :=
  let polar := (jGet v "polar").toBool
  let s1 :=
    if (jGet v "camera").isArray then
      ((jGet v "camera").arrList).foldl
        (fun t c => jsonCamRow k polar c t) s
    else s
  if (jGet v "transformation").isArray then
    ((jGet v "transformation").arrList).foldl
      (fun t tr => jsonTransRow k tr t) s1
  else s1

/-- One guarded five-entry colour array of the JSON fix point (index 0
unused, 1..4 = RGBA; applied only when all four are numbers). -/
def jsonColour (v : JValue) (key : String) (cur : RGBA) : RGBA :=
  let c := jGet v key
  if c.isArray && decide (5 ≤ c.size) && (jIdx c 1).isNumber &&
      (jIdx c 2).isNumber && (jIdx c 3).isNumber && (jIdx c 4).isNumber then
    ⟨(jIdx c 1).asNum, (jIdx c 2).asNum, (jIdx c 3).asNum, (jIdx c 4).asNum⟩
  else cur

/-- The 1D fix point of the JSON decode: scalar parameters (the
iteration/seed/function/flame counts go through an `(int)` cast), the
two rotate flags (applied whenever the member is non-null), and the
three guarded colour arrays. -/
def jsonFixBody (v : JValue) (s : GState) : GState :=
  let s := if (jGet v "radius").isNumber then
    { s with parameter.radius := (jGet v "radius").asNum } else s
  let s := if (jGet v "minorRadius").isNumber then
    { s with parameter.radius2 := (jGet v "minorRadius").asNum } else s
  let s := if (jGet v "constant").isNumber then
    { s with parameter.constantQ := (jGet v "constant").asNum } else s
  let s := if (jGet v "precision").isNumber then
    { s with parameter.precision := (jGet v "precision").asNum } else s
  let s := if (jGet v "iterations").isNumber then
    { s with parameter.iterations := (qtrunc ((jGet v "iterations").asNum) : ℚ) } else s
  let s := if (jGet v "seed").isNumber then
    { s with parameter.seed := (qtrunc ((jGet v "seed").asNum) : ℚ) } else s
  let s := if (jGet v "functions").isNumber then
    { s with parameter.functions := (qtrunc ((jGet v "functions").asNum) : ℚ) } else s
  let s := if (jGet v "flameCoefficients").isNumber then
    { s with parameter.flameCoefficients :=
        (qtrunc ((jGet v "flameCoefficients").asNum) : ℚ) } else s
  let s := if (jGet v "preRotate").nonNull then
    { s with parameter.preRotate := (jGet v "preRotate").toBool } else s
  let s := if (jGet v "postRotate").nonNull then
    { s with parameter.postRotate := (jGet v "postRotate").toBool } else s
  let s := { s with background := jsonColour v "background" s.background }
  let s := { s with wireframe := jsonColour v "wireframe" s.wireframe }
  { s with surface := jsonColour v "surface" s.surface }

/-- The JSON fix point including its own object check. -/
def jsonFix (v : JValue) (s : GState) : GState × Bool :=
  if v.isObj then (jsonFixBody v s, true) else (s, false)

/-- The full JSON metadata decode `topologic::parse(state<Q,d>&,
json::value&)`: each level checks that the value is an object, applies
its per-dimension body, and recurses; the fix point applies the
dimension-independent scalars once. -/
def jsonParse : ℕ → JValue → GState → GState × Bool
  | 0, v, s => jsonFix v s
  | 1, v, s => jsonFix v s
  | k + 2, v, s =>
    if v.isObj then jsonParse (k + 1) v (jsonDim (k + 2) v s) else (s, false)

/-- The request computed by `topologic::parseModel` (JSON): defaults
`cube` / `cartesian` / depth 4 / render-depth 4, each overridden by a
well-typed member; no render-depth defaulting or bumping of any kind is
applied. -/
def parseModelJSONReq (v : JValue) : Option (String × String × Int × Int) :=
  if v.isObj then
    let fmt := if (jGet v "coordinateFormat").isString then
      (jGet v "coordinateFormat").asStr else "cartesian"
    let mtype := if (jGet v "model").isString then
      (jGet v "model").asStr else "cube"
    let depth := if (jGet v "depth").isNumber then
      qtrunc ((jGet v "depth").asNum) else 4
    let rdepth := if (jGet v "renderDepth").isNumber then
      qtrunc ((jGet v "renderDepth").asNum) else 4
    some (fmt, mtype, depth, rdepth)
  else none

/-- The operations issued by the raster renderer's produce-frame
(`topologic::renderGL::operator()`), in issue order. -/
inductive GLOp where
  | clearColor (r g b a : ℚ)
  | clear
  | pushMatrix
  | enableDepthTest
  | lookAt
  | depthMask (b : Bool)
  | color4d (r g b a : ℚ)
  | drawWireframe
  | matSpecular
  | matShininess
  | matEmission
  | drawSolid
  | popMatrix
  | flush
  | swapBuffers
deriving DecidableEq, Repr

/-- The frame trace of `renderGL::operator()`: clear to the background
colour, push the transform, (on the GL3D build) depth test and view
setup, depth-write on, wireframe colour, wireframe draw, depth-write set
from the surface alpha (the source sets `GL_TRUE` exactly when
`surface.alpha < 1`), material properties, surface colour, solid draw,
pop, flush, present. -/
def renderGLTrace (gl3d : Bool) (bg wf sf : RGBA) : List GLOp :=
  [GLOp.clearColor bg.red bg.green bg.blue bg.alpha,
   GLOp.clear, GLOp.pushMatrix] ++
  (if gl3d then [GLOp.enableDepthTest, GLOp.lookAt] else []) ++
  [GLOp.depthMask true,
   GLOp.color4d wf.red wf.green wf.blue wf.alpha,
   GLOp.drawWireframe,
   GLOp.depthMask (decide (sf.alpha < 1)),
   GLOp.matSpecular, GLOp.matShininess, GLOp.matEmission,
   GLOp.color4d sf.red sf.green sf.blue sf.alpha,
   GLOp.drawSolid,
   GLOp.popMatrix, GLOp.flush, GLOp.swapBuffers]

/-- Is this the wireframe draw call? -/
def isWireOp : GLOp → Bool
  | GLOp.drawWireframe => true
  | _ => false

/-- Is this the solid draw call? -/
def isSolidOp : GLOp → Bool
  | GLOp.drawSolid => true
  | _ => false

/-- Index of the first operation satisfying `p`. -/
def firstIdxAux (p : GLOp → Bool) : List GLOp → ℕ → Option ℕ
  | [], _ => none
  | op :: rest, n => if p op then some n else firstIdxAux p rest (n + 1)

/-- Index of the first operation satisfying `p`, from the start. -/
def firstIdx (p : GLOp → Bool) (l : List GLOp) : Option ℕ :=
  firstIdxAux p l 0

/-- The depth-mask value in effect at the first operation satisfying
`p` (`none` when no mask was set yet or `p` never holds). -/
def lastMaskBeforeAux (p : GLOp → Bool) : List GLOp → Option Bool → Option Bool
  | [], _ => none
  | op :: rest, acc =>
    if p op then acc
    else lastMaskBeforeAux p rest
      (match op with
       | GLOp.depthMask b => some b
       | _ => acc)

/-- The depth-mask value in effect at the first operation satisfying
`p`. -/
def maskBefore (p : GLOp → Bool) (l : List GLOp) : Option Bool :=
  lastMaskBeforeAux p l none

/-- `v` clamped into `[lo, hi]` the way the iOS shell writes the user
defaults back: raise to `lo` first, else cap at `hi`. -/
def iosClamp (lo hi v : Int) : Int :=
  if v < lo then lo else if v > hi then hi else v

/-- The three model types whose depth the iOS live-settings path forces
to 2. -/
def planeFamily (m : String) : Bool :=
  m == "plane" || m == "moebius-strip" || m == "klein-bagel"

/-- The (depth, render-depth) pair that `-[iOSAppDelegate updateModel]`
forwards to `efgy::geometry::with` for model type `m`, given the stored
settings and the compiled maximum depth: clamp depth to `[2, maxD]` and
render-depth to `[3, maxD]`; the `planeFamily` types force depth to 2;
`sphere` lowers depth below `maxD` and, when render-depth ≤ depth,
lowers DEPTH to render-depth − 1 (it never raises render-depth); all
other types raise render-depth to at least depth. -/
def iosUpdateModel (maxD : Int) (m : String) (depth rdepth : Int) :
    Int × Int :=
  let d1 := iosClamp 2 maxD depth
  let r1 := iosClamp 3 maxD rdepth
  if planeFamily m then
    (if d1 ≠ 2 then 2 else d1, r1)
  else if m == "sphere" then
    let d2 := if d1 ≥ maxD then maxD - 1 else d1
    let d3 := if r1 ≤ d2 then r1 - 1 else d2
    (d3, r1)
  else
    (d1, if r1 < d1 then d1 else r1)

/-- A heap-and-binding configuration for renderer replacement: the ids
of the renderer objects currently allocated, and the id the state's
`model` pointer holds (`none` = null). -/
structure RepCfg where
  live : List ℕ
  bound : Option ℕ
deriving DecidableEq, Repr

/-- Does the state's accessor yield a destroyed renderer here? -/
def danglingB (c : RepCfg) : Bool :=
  match c.bound with
  | some i => !(c.live.contains i)
  | none => false

/-- The configuration sequence of `updateModel::apply` installing the
renderer object `newId`, paired with whether code outside apply's own
straight-line statements runs at that point (the places the accessor is
observable in the single-threaded model): at entry; while the old
renderer's virtual destructor runs (its storage is released only when
`delete` returns); NOT between `delete out.model` returning and
`out.model = 0` (no call happens there); while the new wrapper's
constructor runs with its back-reference to the state (the pointer is
already null); and at return with the new renderer installed. -/
def applyStages (c : RepCfg) (newId : ℕ) : List (RepCfg × Bool) :=
  match c.bound with
  | some old =>
    [(c, true),
     (⟨c.live, some old⟩, true),
     (⟨c.live.erase old, some old⟩, false),
     (⟨c.live.erase old, none⟩, true),
     (⟨newId :: c.live.erase old, some newId⟩, true)]
  | none =>
    [(c, true),
     (⟨c.live, none⟩, true),
     (⟨newId :: c.live, some newId⟩, true)]

/-- The default per-dimension slot built by the `state<Q,d>`
constructors: for dimension 3 the polar camera (3, 1, 1), for higher
dimensions radius 2 with angles 1.57; cartesian vectors default to zero
and the transformation to the identity (the zero-vector and
identity-like defaults of the external projection/affine constructors,
per §4.1 of the spec). -/
def defSlot (k : ℕ) : DimSlot :=
  if k = 3 then ⟨fun i => if i = 0 then 3 else 1, fun _ => 0, idMat⟩
  else ⟨fun i => if i = 0 then 2 else 157 / 100, fun _ => 0, idMat⟩

/-- The default state built by the `state<Q,2>` constructor: polar mode,
polar radius 1, polar precision 10, export multiplier 2, background
(0.45, 0.45, 0.65, 1), wireframe (1, 1, 1, 1), surface (1, 1, 1, 0.1),
no model, empty id prefix.  The parameter-bag fields the sources never
initialise default to zero here. -/
def defState : GState :=
  { dims := defSlot
    polarCoordinates := true
    parameter :=
      { radius := 0, radius2 := 0, constantQ := 0, precision := 0,
        iterations := 0, seed := 0, functions := 0, flameCoefficients := 0,
        preRotate := false, postRotate := false,
        polarRadius := 1, polarPrecision := 10, vertexLimit := 0 }
    exportMultiplier := 2
    background := ⟨45 / 100, 45 / 100, 65 / 100, 1⟩
    wireframe := ⟨1, 1, 1, 1⟩
    surface := ⟨1, 1, 1, 1 / 10⟩
    model := none
    idpfx := "" }

/-- The effect of decoding one encoded camera fragment of dimension `k`
back into a state `t`: in polar mode the first `k` polar coordinates of
dimension `k` become those of the encoded state `s`, in cartesian mode
the first `k` cartesian coordinates do. -/
def camWrite (s : GState) (k : ℕ) (t : GState) : GState :=
  if s.polarCoordinates then
    updDim k (fun sl =>
      { sl with fromp := fun j => if j < k then (s.dims k).fromp j else sl.fromp j }) t
  else
    updDim k (fun sl =>
      { sl with fromc := fun j => if j < k then (s.dims k).fromc j else sl.fromc j }) t

/-- `camWrite` restricted to the first `n` coordinates: the loop
invariant of the camera attribute loop. -/
def camWriteN (s : GState) (k n : ℕ) (t : GState) : GState :=
  if s.polarCoordinates then
    updDim k (fun sl =>
      { sl with fromp := fun j => if j < n then (s.dims k).fromp j else sl.fromp j }) t
  else
    updDim k (fun sl =>
      { sl with fromc := fun j => if j < n then (s.dims k).fromc j else sl.fromc j }) t

/-- The camera effect of the whole per-dimension decode of an encoded
document: one `camWrite` per dimension from `c` down to 3. -/
def camWriteAll (s : GState) : ℕ → GState → GState
  | c + 3, t => camWriteAll s (c + 2) (camWrite s (c + 3) t)
  | _, t => t

/-- The effect of the 1D fix point on a document produced by
`metadata()`: the camera mode, the three colours, and the polar
radius/precision values land in the state — the latter two in the
`radius`/`precision` parameter fields, although they were encoded from
`polarRadius`/`polarPrecision`. -/
def fixApply (s u : GState) : GState :=
  { u with
    polarCoordinates := s.polarCoordinates
    parameter.precision := s.parameter.polarPrecision
    parameter.radius := s.parameter.polarRadius
    background := s.background
    wireframe := s.wireframe
    surface := s.surface }

/-- A document carrying a sphere model request at depth 3 with an
explicit render-depth of 3 (`<t:model type="sphere" depth="3"
render-depth="3"/>`). -/
def sphereDoc33 : XDoc :=
  [⟨ElemName.model,
    [(AttrName.type, AttrVal.str "sphere"), (AttrName.depth, AttrVal.num 3),
     (AttrName.renderDepth, AttrVal.num 3)]⟩]

/-- A document carrying a sphere model request at depth 3 with NO
render-depth attribute (`<t:model type="sphere" depth="3"/>`). -/
def sphereDocNoRd : XDoc :=
  [⟨ElemName.model,
    [(AttrName.type, AttrVal.str "sphere"), (AttrName.depth, AttrVal.num 3)]⟩]

/-- A document requesting a plane model at depth 3
(`<t:model type="plane" depth="3"/>`). -/
def planeDoc3 : XDoc :=
  [⟨ElemName.model,
    [(AttrName.type, AttrVal.str "plane"), (AttrName.depth, AttrVal.num 3)]⟩]

/-- A document whose only malformed numeric attribute is
`options/@radius = "abc"`, with a well-formed `precision/@polar` decoded
before it and a well-formed `colour-background/@red` decoded after it in
the fix point's fixed order. -/
def malformedDoc : XDoc :=
  [⟨ElemName.precision, [(AttrName.polar, AttrVal.num 5)]⟩,
   ⟨ElemName.options, [(AttrName.radius, AttrVal.str "abc")]⟩,
   ⟨ElemName.colourBackground, [(AttrName.red, AttrVal.num 1)]⟩]

/-- The document `<transformation depth="4" matrix="identity"/>`. -/
def identDoc4 : XDoc :=
  [⟨ElemName.transformation,
    [(AttrName.depth, AttrVal.num 4), (AttrName.matrix, AttrVal.str "identity")]⟩]

/-- A state with a renderer bound (a cube at depth/render-depth 4). -/
def boundState : GState :=
  { defState with model := some ⟨"cube", 4, 4⟩ }

/-- The round-trip source state: default state with a distinctive
export multiplier, a bound model, and distinctive per-dimension camera
and matrix data. -/
def rtS : GState :=
  { defState with
    exportMultiplier := 7
    model := some ⟨"cube", 4, 4⟩ }

/-- A JSON document with a top-level polar flag, one 3-entry camera row
and a radius (used to witness the JSON frame theorem). -/
def jdocW : JValue :=
  JValue.obj
    [("polar", JValue.bool true),
     ("camera",
      JValue.arr [JValue.arr [JValue.number 9, JValue.number 8, JValue.number 7]]),
     ("radius", JValue.number 42)]

attribute [ext] RGBA Params DimSlot GState

theorem updDim_dims_self (k : ℕ) (f : DimSlot → DimSlot) (s : GState) :
    (updDim k f s).dims k = f (s.dims k) := by
  simp [updDim]

theorem updDim_dims_ne (k j : ℕ) (f : DimSlot → DimSlot) (s : GState)
    (h : j ≠ k) : (updDim k f s).dims j = s.dims j := by
  simp [updDim, h]

/-- C5, counterexample: the claim that depth-write is disabled for the
solid pass when the surface alpha is below 1 is false on the code — with
surface alpha 1/2 the mask in effect at the solid draw of the produced
frame is GL_TRUE (enabled), because `renderGL::operator()` passes
`GL_TRUE` exactly when `surface.alpha < 1`. -/
theorem raster_mask_counterexample :
    ((1 : ℚ) / 2 < 1) ∧
      maskBefore isSolidOp
        (renderGLTrace false ⟨0, 0, 0, 1⟩ ⟨1, 1, 1, 1⟩ ⟨1, 1, 1, 1 / 2⟩) =
          some true := by
  refine ⟨by norm_num, ?_⟩
  norm_num [renderGLTrace, maskBefore, lastMaskBeforeAux, isSolidOp]

/-- C5, amended: in every frame trace of the raster renderer the
wireframe draw call precedes the solid draw call and depth-write is
enabled for the wireframe pass; the depth-write in effect at the solid
pass (and only there) is set from the surface alpha, but with the
opposite polarity to the claim: it is ENABLED exactly when the alpha is
less than 1 and disabled otherwise. -/
theorem raster_order_amended (gl3d : Bool) (bg wf sf : RGBA) :
    (∃ i j, firstIdx isWireOp (renderGLTrace gl3d bg wf sf) = some i ∧
      firstIdx isSolidOp (renderGLTrace gl3d bg wf sf) = some j ∧ i < j) ∧
    maskBefore isWireOp (renderGLTrace gl3d bg wf sf) = some true ∧
    maskBefore isSolidOp (renderGLTrace gl3d bg wf sf) =
      some (decide (sf.alpha < 1)) := by
  cases gl3d
  · exact ⟨⟨5, 11, rfl, rfl, by norm_num⟩, rfl, rfl⟩
  · exact ⟨⟨7, 13, rfl, rfl, by norm_num⟩, rfl, rfl⟩

/-- C4, counterexample: a file-based decode of a sphere model with
depth 3 and an explicit render-depth of 3 forwards render-depth 3 to
dispatch and installs a renderer whose render-depth equals its depth —
nothing is auto-bumped, so the resulting render-depth is not strictly
greater than the resulting depth. -/
theorem sphere_rdepth_counterexample :
    parseModelXMLReq sphereDoc33 = ModelReq.found "cartesian" "sphere" 3 3 ∧
    (resolve specModelTable defState "cartesian" "sphere" 3 3).1.model =
      some ⟨"sphere", 3, 3⟩ ∧
    ¬ ((3 : ℕ) > 3) :=
  ⟨rfl, rfl, by norm_num⟩

/-- C4, amended: on the live-settings path (`-[iOSAppDelegate
updateModel]`) a sphere always ends with render-depth strictly greater
than depth — but by lowering DEPTH to render-depth − 1, not by raising
render-depth; on the file-based path the render-depth is bumped to
depth + 1 only when the parsed render-depth value is exactly 0, and any
non-zero requested render-depth (including one ≤ depth) is forwarded
unchanged. -/
theorem sphere_rdepth_amended (maxD depth rdepth r : Int) (t : String) :
    (iosUpdateModel maxD "sphere" depth rdepth).1 <
      (iosUpdateModel maxD "sphere" depth rdepth).2 ∧
    (r ≠ 0 → xmlForwardRd t depth (some r) = r) ∧
    xmlForwardRd "sphere" depth (some 0) = depth + 1 := by
  refine ⟨?_, ?_, ?_⟩
  · have hpf : planeFamily "sphere" = false := by decide
    have hsp : ("sphere" == "sphere") = true := by decide
    simp only [iosUpdateModel, hpf, hsp, Bool.false_eq_true, if_false, if_true,
      iosClamp]
    split_ifs <;> omega
  · intro hr
    simp [xmlForwardRd, hr]
  · simp [xmlForwardRd, closedBump]

/-- C6, counterexample: the file-based decode of a plane model at
requested depth 3 forwards depth 3 (not 2) to dispatch; there it fails
to resolve, leaving the state's renderer untouched — so this install
path does not produce a model of depth exactly 2. -/
theorem plane_depth_counterexample :
    parseModelXMLReq planeDoc3 = ModelReq.found "cartesian" "plane" 3 3 ∧
    ((3 : Int) ≠ 2) ∧
    resolve specModelTable defState "cartesian" "plane" 3 3 =
      (defState, false) :=
  ⟨rfl, by norm_num, rfl⟩

/-- C6, amended: only the live-settings path clamps the depth of
`plane` / `moebius-strip` / `klein-bagel` to exactly 2; the file-based
decode forwards the requested depth unchanged to dispatch. -/
theorem plane_depth_amended (maxD depth rdepth : Int) (m t : String) (dq : ℚ)
    (hm : planeFamily m = true) :
    (iosUpdateModel maxD m depth rdepth).1 = 2 ∧
    (∃ rd, parseModelXMLReq
        [⟨ElemName.model,
          [(AttrName.type, AttrVal.str t), (AttrName.depth, AttrVal.num dq)]⟩] =
      ModelReq.found "cartesian" t (qtrunc dq) rd) := by
  constructor
  · simp only [iosUpdateModel, hm, if_true]
    split_ifs <;> omega
  · exact ⟨_, rfl⟩

/-- C6, witness for the amended theorem at a concrete input. -/
theorem plane_depth_amended_witness :
    (iosUpdateModel 7 "plane" 5 4).1 = 2 ∧
    (∃ rd, parseModelXMLReq
        [⟨ElemName.model,
          [(AttrName.type, AttrVal.str "plane"), (AttrName.depth, AttrVal.num 3)]⟩] =
      ModelReq.found "cartesian" "plane" (qtrunc 3) rd) :=
  plane_depth_amended 7 5 4 "plane" "plane" 3 (by decide)

/-- C7, counterexample: with the render-depth attribute UNSPECIFIED, a
sphere model at depth 3 is forwarded with render-depth 3 (= depth), not
depth + 1 = 4: the code's default is `depth`, and the bump branch only
fires when the parsed render-depth value is exactly 0. -/
theorem rdepth_default_counterexample :
    parseModelXMLReq sphereDocNoRd = ModelReq.found "cartesian" "sphere" 3 3 ∧
    ((3 : Int) ≠ 3 + 1) :=
  ⟨rfl, by norm_num⟩

/-- C7, amended: in the XML `parseModel`, an absent render-depth
defaults to the parsed depth with no bump (whenever that depth is
non-zero); only a parsed render-depth of exactly 0 is reset to depth and
then incremented — and the increment set is `sphere`, `moebius-strip`
and the misspelt `klein-bagle`, so the real `klein-bagel` model is never
bumped; the JSON `parseModel` forwards its members without any
defaulting or bumping. -/
theorem rdepth_default_amended (t fmt mdl : String) (dq rq dj rj : ℚ)
    (hd : qtrunc dq ≠ 0) (hr : qtrunc rq = 0) :
    parseModelXMLReq
        [⟨ElemName.model,
          [(AttrName.type, AttrVal.str t), (AttrName.depth, AttrVal.num dq)]⟩] =
      ModelReq.found "cartesian" t (qtrunc dq) (qtrunc dq) ∧
    parseModelXMLReq
        [⟨ElemName.model,
          [(AttrName.type, AttrVal.str t), (AttrName.depth, AttrVal.num dq),
           (AttrName.renderDepth, AttrVal.num rq)]⟩] =
      ModelReq.found "cartesian" t (qtrunc dq)
        (if closedBump t then qtrunc dq + 1 else qtrunc dq) ∧
    closedBump "sphere" = true ∧ closedBump "moebius-strip" = true ∧
    closedBump "klein-bagle" = true ∧ closedBump "klein-bagel" = false ∧
    parseModelJSONReq
        (JValue.obj
          [("coordinateFormat", JValue.str fmt), ("model", JValue.str mdl),
           ("depth", JValue.number dj), ("renderDepth", JValue.number rj)]) =
      some (fmt, mdl, qtrunc dj, qtrunc rj) := by
  refine ⟨?_, ?_, by decide, by decide, by decide, by decide, rfl⟩
  · have h1 : parseModelXMLReq
        [⟨ElemName.model,
          [(AttrName.type, AttrVal.str t), (AttrName.depth, AttrVal.num dq)]⟩] =
        ModelReq.found "cartesian" t (qtrunc dq)
          (xmlForwardRd t (qtrunc dq) none) := rfl
    rw [h1]
    simp [xmlForwardRd, hd]
  · have h2 : parseModelXMLReq
        [⟨ElemName.model,
          [(AttrName.type, AttrVal.str t), (AttrName.depth, AttrVal.num dq),
           (AttrName.renderDepth, AttrVal.num rq)]⟩] =
        ModelReq.found "cartesian" t (qtrunc dq)
          (xmlForwardRd t (qtrunc dq) (some (qtrunc rq))) := rfl
    rw [h2]
    simp [xmlForwardRd, hr]

/-- C7, witness for the amended theorem at a concrete input. -/
theorem rdepth_default_amended_witness :
    parseModelXMLReq
        [⟨ElemName.model,
          [(AttrName.type, AttrVal.str "sphere"), (AttrName.depth, AttrVal.num 3)]⟩] =
      ModelReq.found "cartesian" "sphere" (qtrunc 3) (qtrunc 3) ∧
    parseModelJSONReq
        (JValue.obj
          [("coordinateFormat", JValue.str "cartesian"),
           ("model", JValue.str "sphere"),
           ("depth", JValue.number 3), ("renderDepth", JValue.number 0)]) =
      some ("cartesian", "sphere", qtrunc 3, qtrunc 0) := by
  have h := rdepth_default_amended "sphere" "cartesian" "sphere" 3 0 3 0
    (by decide) (by decide)
  exact ⟨h.1, h.2.2.2.2.2.2⟩

/-- C3, counterexample: `resolve` with a type name not in the compiled
table does leave a previously bound renderer untouched, but it does NOT
return false when a renderer is bound: `updateModel::pass` returns
`out.model != 0`, which is true here. -/
theorem resolve_unknown_counterexample :
    (resolve specModelTable boundState "cartesian" "does-not-exist" 3 3).2 =
      true ∧
    (resolve specModelTable boundState "cartesian" "does-not-exist" 3 3).1.model =
      some ⟨"cube", 4, 4⟩ :=
  ⟨rfl, rfl⟩

/-- C3, amended: `resolve` with a type name matching no table entry
leaves the state (including a previously bound renderer) completely
untouched and returns whether a renderer is currently bound
(`out.model != 0`) — i.e. false exactly when no renderer was bound. -/
theorem resolve_unknown_amended (table : List ModelEntry) (s : GState)
    (fmt mtype : String) (depth rdepth : Int)
    (h : ∀ e ∈ table, e.mname ≠ mtype) :
    resolve table s fmt mtype depth rdepth = (s, s.model.isSome) := by
  unfold resolve
  have hany : table.any (fun e => entryMatches e fmt mtype depth) = false := by
    rw [List.any_eq_false]
    intro e he
    simp [entryMatches, h e he]
  rw [hany]
  simp

/-- C3, witness for the amended theorem at a concrete input. -/
theorem resolve_unknown_amended_witness :
    resolve specModelTable boundState "cartesian" "no-such-model" 2 2 =
      (boundState, boundState.model.isSome) :=
  resolve_unknown_amended specModelTable boundState "cartesian" "no-such-model"
    2 2 (by decide)

/-- C2, counterexample: a document whose `options/@radius` is the
malformed literal `"abc"` makes the decode abort (`std::stold` throws
and nothing catches it): the well-formed `colour-background/@red = 1`
later in the same document is NOT applied — the background keeps its
prior value 0.45. -/
theorem xml_malformed_counterexample :
    (parseXML 2 malformedDoc defState).2 = false ∧
    (parseXML 2 malformedDoc defState).1.background.red = 45 / 100 ∧
    ((45 : ℚ) / 100 ≠ 1) :=
  ⟨rfl, rfl, by norm_num⟩

/-- C2, amended: a malformed numeric literal aborts the decode with an
uncaught conversion exception rather than being skipped: scalars decoded
before it in the fix point's fixed order (here `precision/@polar`) keep
their newly applied values, while the offending field and every field
after it retain their prior values. -/
theorem xml_malformed_amended (p r : ℚ) (bad : String) :
    parseXML 2
        [⟨ElemName.precision, [(AttrName.polar, AttrVal.num p)]⟩,
         ⟨ElemName.options, [(AttrName.radius, AttrVal.str bad)]⟩,
         ⟨ElemName.colourBackground, [(AttrName.red, AttrVal.num r)]⟩]
        defState =
      ({ defState with parameter.precision := p }, false) :=
  rfl

/-- C8, confirmed: decoding `<transformation depth="4"
matrix="identity"/>` into a 4-dimension state resets the dimension-4
(5×5) transformation matrix to the identity, whatever it held before,
touching neither the other dimensions' matrices nor the camera mode. -/
theorem identity_reset_confirmed (s : GState) (i j : ℕ) :
    (parseXML 4 identDoc4 s).2 = true ∧
    ((parseXML 4 identDoc4 s).1.dims 4).matrix i j = idMat i j ∧
    ((parseXML 4 identDoc4 s).1.dims 3).matrix i j = (s.dims 3).matrix i j ∧
    (parseXML 4 identDoc4 s).1.polarCoordinates = s.polarCoordinates := by
  have hred : parseXML 4 identDoc4 s =
      (updDim 4 (fun sl => { sl with matrix := idMat }) s, true) := rfl
  rw [hred]
  refine ⟨rfl, ?_, ?_, rfl⟩
  · simp [updDim]
  · simp [updDim]

theorem foldl_proj_inv {α β : Type _} (pi : GState → β) (f : GState → α → GState)
    (hf : ∀ t x, pi (f t x) = pi t) :
    ∀ (xs : List α) (s : GState), pi (xs.foldl f s) = pi s := by
  intro xs
  induction xs with
  | nil => intro s; rfl
  | cons x rest ih =>
    intro s
    rw [List.foldl_cons, ih, hf]

theorem setFromp_polar (k i : ℕ) (q : ℚ) (s : GState) :
    (setFromp k i q s).polarCoordinates = s.polarCoordinates := rfl

theorem setFromc_polar (k i : ℕ) (q : ℚ) (s : GState) :
    (setFromc k i q s).polarCoordinates = s.polarCoordinates := rfl

theorem setMat_polar (k i j : ℕ) (q : ℚ) (s : GState) :
    (setMat k i j q s).polarCoordinates = s.polarCoordinates := rfl

theorem setFromp_fromc (k i : ℕ) (q : ℚ) (s : GState) (a b : ℕ) :
    ((setFromp k i q s).dims a).fromc b = (s.dims a).fromc b := by
  by_cases h : a = k <;> simp [setFromp, updDim, h]

theorem setFromc_fromp (k i : ℕ) (q : ℚ) (s : GState) (a b : ℕ) :
    ((setFromc k i q s).dims a).fromp b = (s.dims a).fromp b := by
  by_cases h : a = k <;> simp [setFromc, updDim, h]

theorem setMat_fromp (k i j : ℕ) (q : ℚ) (s : GState) (a b : ℕ) :
    ((setMat k i j q s).dims a).fromp b = (s.dims a).fromp b := by
  by_cases h : a = k <;> simp [setMat, updDim, h]

theorem setMat_fromc (k i j : ℕ) (q : ℚ) (s : GState) (a b : ℕ) :
    ((setMat k i j q s).dims a).fromc b = (s.dims a).fromc b := by
  by_cases h : a = k <;> simp [setMat, updDim, h]

theorem jsonCamRow_polar (k : ℕ) (pol : Bool) (c : JValue) (t : GState) :
    (jsonCamRow k pol c t).polarCoordinates = t.polarCoordinates := by
  unfold jsonCamRow
  split
  · refine foldl_proj_inv (fun u => u.polarCoordinates) _ ?_ _ t
    intro t2 i
    dsimp only
    split
    · split
      · exact setFromp_polar ..
      · exact setFromc_polar ..
    · rfl
  · rfl

theorem jsonCamRow_fromc (k : ℕ) (c : JValue) (t : GState) (a b : ℕ) :
    ((jsonCamRow k true c t).dims a).fromc b = ((t.dims a).fromc b) := by
  unfold jsonCamRow
  split
  · refine foldl_proj_inv (fun u => (u.dims a).fromc b) _ ?_ _ t
    intro t2 i
    dsimp only
    split
    · exact setFromp_fromc ..
    · rfl
  · rfl

theorem jsonCamRow_fromp (k : ℕ) (c : JValue) (t : GState) (a b : ℕ) :
    ((jsonCamRow k false c t).dims a).fromp b = ((t.dims a).fromp b) := by
  unfold jsonCamRow
  split
  · refine foldl_proj_inv (fun u => (u.dims a).fromp b) _ ?_ _ t
    intro t2 i
    dsimp only
    split
    · exact setFromc_fromp ..
    · rfl
  · rfl

theorem jsonTransRow_polar (k : ℕ) (tr : JValue) (t : GState) :
    (jsonTransRow k tr t).polarCoordinates = t.polarCoordinates := by
  unfold jsonTransRow
  split
  · refine foldl_proj_inv (fun u => u.polarCoordinates) _ ?_ _ t
    intro t2 ij
    dsimp only
    split
    · exact setMat_polar ..
    · rfl
  · rfl

theorem jsonTransRow_fromp (k : ℕ) (tr : JValue) (t : GState) (a b : ℕ) :
    ((jsonTransRow k tr t).dims a).fromp b = ((t.dims a).fromp b) := by
  unfold jsonTransRow
  split
  · refine foldl_proj_inv (fun u => (u.dims a).fromp b) _ ?_ _ t
    intro t2 ij
    dsimp only
    split
    · exact setMat_fromp ..
    · rfl
  · rfl

theorem jsonTransRow_fromc (k : ℕ) (tr : JValue) (t : GState) (a b : ℕ) :
    ((jsonTransRow k tr t).dims a).fromc b = ((t.dims a).fromc b) := by
  unfold jsonTransRow
  split
  · refine foldl_proj_inv (fun u => (u.dims a).fromc b) _ ?_ _ t
    intro t2 ij
    dsimp only
    split
    · exact setMat_fromc ..
    · rfl
  · rfl

theorem jsonDim_polar (k : ℕ) (v : JValue) (s : GState) :
    (jsonDim k v s).polarCoordinates = s.polarCoordinates := by
  unfold jsonDim
  have h1 : ∀ t : GState,
      ((if (jGet v "transformation").isArray then
          ((jGet v "transformation").arrList).foldl
            (fun t tr => jsonTransRow k tr t) t
        else t)).polarCoordinates = t.polarCoordinates := by
    intro t
    split
    · exact foldl_proj_inv (fun u => u.polarCoordinates) _
        (fun t2 tr => jsonTransRow_polar ..) _ t
    · rfl
  rw [h1]
  split
  · exact foldl_proj_inv (fun u => u.polarCoordinates) _
      (fun t2 c => jsonCamRow_polar ..) _ s
  · rfl

theorem jsonDim_fromc (k : ℕ) (v : JValue) (s : GState) (a b : ℕ)
    (hp : (jGet v "polar").toBool = true) :
    ((jsonDim k v s).dims a).fromc b = ((s.dims a).fromc b) := by
  unfold jsonDim
  rw [hp]
  have h1 : ∀ t : GState,
      (((if (jGet v "transformation").isArray then
          ((jGet v "transformation").arrList).foldl
            (fun t tr => jsonTransRow k tr t) t
        else t)).dims a).fromc b = ((t.dims a).fromc b) := by
    intro t
    split
    · exact foldl_proj_inv (fun u => (u.dims a).fromc b) _
        (fun t2 tr => jsonTransRow_fromc ..) _ t
    · rfl
  rw [h1]
  split
  · exact foldl_proj_inv (fun u => (u.dims a).fromc b) _
      (fun t2 c => jsonCamRow_fromc ..) _ s
  · rfl

theorem jsonDim_fromp (k : ℕ) (v : JValue) (s : GState) (a b : ℕ)
    (hp : (jGet v "polar").toBool = false) :
    ((jsonDim k v s).dims a).fromp b = ((s.dims a).fromp b) := by
  unfold jsonDim
  rw [hp]
  have h1 : ∀ t : GState,
      (((if (jGet v "transformation").isArray then
          ((jGet v "transformation").arrList).foldl
            (fun t tr => jsonTransRow k tr t) t
        else t)).dims a).fromp b = ((t.dims a).fromp b) := by
    intro t
    split
    · exact foldl_proj_inv (fun u => (u.dims a).fromp b) _
        (fun t2 tr => jsonTransRow_fromp ..) _ t
    · rfl
  rw [h1]
  split
  · exact foldl_proj_inv (fun u => (u.dims a).fromp b) _
      (fun t2 c => jsonCamRow_fromp ..) _ s
  · rfl

theorem jsonFixBody_polar (v : JValue) (s : GState) :
    (jsonFixBody v s).polarCoordinates = s.polarCoordinates := by
  simp only [jsonFixBody,
    apply_ite (fun u : GState => u.polarCoordinates), ite_self]

theorem jsonFixBody_dims (v : JValue) (s : GState) :
    (jsonFixBody v s).dims = s.dims := by
  simp only [jsonFixBody, apply_ite (fun u : GState => u.dims), ite_self]

theorem json_polar_core : ∀ (d : ℕ) (v : JValue) (s : GState),
    (jsonParse d v s).1.polarCoordinates = s.polarCoordinates ∧
    ((jGet v "polar").toBool = true →
      ∀ a b, ((jsonParse d v s).1.dims a).fromc b = ((s.dims a).fromc b)) ∧
    ((jGet v "polar").toBool = false →
      ∀ a b, ((jsonParse d v s).1.dims a).fromp b = ((s.dims a).fromp b))
  | 0, v, s => by
    unfold jsonParse jsonFix
    split
    · exact ⟨jsonFixBody_polar .., fun _ a b => by rw [jsonFixBody_dims],
        fun _ a b => by rw [jsonFixBody_dims]⟩
    · exact ⟨rfl, fun _ _ _ => rfl, fun _ _ _ => rfl⟩
  | 1, v, s => by
    unfold jsonParse jsonFix
    split
    · exact ⟨jsonFixBody_polar .., fun _ a b => by rw [jsonFixBody_dims],
        fun _ a b => by rw [jsonFixBody_dims]⟩
    · exact ⟨rfl, fun _ _ _ => rfl, fun _ _ _ => rfl⟩
  | (k + 2), v, s => by
    unfold jsonParse
    split
    · have ih := json_polar_core (k + 1) v (jsonDim (k + 2) v s)
      refine ⟨?_, ?_, ?_⟩
      · rw [ih.1, jsonDim_polar]
      · intro hp a b
        rw [ih.2.1 hp a b, jsonDim_fromc _ _ _ _ _ hp]
      · intro hp a b
        rw [ih.2.2 hp a b, jsonDim_fromp _ _ _ _ _ hp]
    · exact ⟨rfl, fun _ _ _ => rfl, fun _ _ _ => rfl⟩

/-- C9, confirmed: in `updateModel::apply` the old renderer is deleted
and the state's model pointer cleared before the new wrapper is
constructed and installed; at every point where code outside apply's own
straight-line statements can run (entry, the old renderer's destructor,
the new wrapper's constructor, return) the accessor yields no dangling
renderer — it is null, the old live instance, or the new live
instance. -/
theorem replace_no_dangling_confirmed (c : RepCfg) (newId : ℕ)
    (wf : ∀ i, c.bound = some i → i ∈ c.live) :
    ∀ st ∈ applyStages c newId, st.2 = true →
      danglingB st.1 = false ∧
        (st.1.bound = none ∨ st.1.bound = c.bound ∨ st.1.bound = some newId) := by
  intro st hmem hobs
  rcases hcb : c.bound with _ | old
  · rw [applyStages, hcb] at hmem
    simp only [List.mem_cons, List.not_mem_nil, or_false] at hmem
    rcases hmem with h | h | h <;> subst h
    · exact ⟨by simp [danglingB, hcb], Or.inl hcb⟩
    · exact ⟨by simp [danglingB], Or.inl rfl⟩
    · refine ⟨?_, Or.inr (Or.inr rfl)⟩
      simp [danglingB, List.contains_cons]
  · rw [applyStages, hcb] at hmem
    simp only [List.mem_cons, List.not_mem_nil, or_false] at hmem
    have hold : old ∈ c.live := wf old hcb
    rcases hmem with h | h | h | h | h <;> subst h
    · refine ⟨?_, Or.inr (Or.inl hcb)⟩
      simp [danglingB, hcb, hold]
    · refine ⟨?_, Or.inr (Or.inl rfl)⟩
      simp [danglingB, hold]
    · cases hobs
    · exact ⟨by simp [danglingB], Or.inl rfl⟩
    · refine ⟨?_, Or.inr (Or.inr rfl)⟩
      simp [danglingB, List.contains_cons]

/-- C10, confirmed: the JSON decode never modifies the state's
`polarCoordinates` flag at any recursion depth; the document's top-level
`polar` boolean only selects the destination vector — when it is set the
cartesian vectors are left untouched at every dimension, and when it is
unset (or absent or non-boolean) the polar vectors are. -/
theorem json_polar_frame_confirmed (d : ℕ) (v : JValue) (s : GState) :
    (jsonParse d v s).1.polarCoordinates = s.polarCoordinates ∧
    ((jGet v "polar").toBool = true →
      ∀ a b, ((jsonParse d v s).1.dims a).fromc b = ((s.dims a).fromc b)) ∧
    ((jGet v "polar").toBool = false →
      ∀ a b, ((jsonParse d v s).1.dims a).fromp b = ((s.dims a).fromp b)) :=
  json_polar_core d v s

/-- C10, witness at a concrete document and state. -/
theorem json_polar_frame_witness :
    (jsonParse 4 jdocW defState).1.polarCoordinates =
      defState.polarCoordinates ∧
    ((jsonParse 4 jdocW defState).1.dims 3).fromc 0 =
      ((defState.dims 3).fromc 0) := by
  have h := json_polar_frame_confirmed 4 jdocW defState
  exact ⟨h.1, h.2.1 (by decide) 3 0⟩

/-- C9, witness at a concrete configuration (one bound renderer with
object id 5, new renderer object id 9): the final observable stage. -/
theorem replace_no_dangling_witness :
    danglingB (⟨[9], some 9⟩ : RepCfg) = false ∧
    ((⟨[9], some 9⟩ : RepCfg).bound = none ∨
      (⟨[9], some 9⟩ : RepCfg).bound = (⟨[5], some 5⟩ : RepCfg).bound ∨
      (⟨[9], some 9⟩ : RepCfg).bound = some 9) :=
  replace_no_dangling_confirmed ⟨[5], some 5⟩ 9 (by decide)
    (⟨[9], some 9⟩, true) (by decide) rfl

/-- C4, witness for the amended theorem at concrete inputs. -/
theorem sphere_rdepth_amended_witness :
    (iosUpdateModel 7 "sphere" 4 4).1 < (iosUpdateModel 7 "sphere" 4 4).2 ∧
    xmlForwardRd "cube" 4 (some 5) = 5 ∧
    xmlForwardRd "sphere" 4 (some 0) = 4 + 1 := by
  have h := sphere_rdepth_amended 7 4 4 5 "cube"
  exact ⟨h.1, h.2.1 (by norm_num), h.2.2⟩

theorem listAttr_append (l1 l2 : List (AttrName × AttrVal)) (n : AttrName) :
    listAttr (l1 ++ l2) n =
      match listAttr l1 n with
      | some v => some v
      | none => listAttr l2 n := by
  induction l1 with
  | nil => rfl
  | cons p rest ih =>
    rcases p with ⟨a, v⟩
    by_cases h : a = n <;> simp [listAttr, h, ih]

theorem natAttrs_succ (g : ℕ → AttrName) (v : ℕ → AttrVal) (lo n : ℕ) :
    natAttrs g v lo (n + 1) =
      natAttrs g v lo n ++ [(g (lo + n), v (lo + n))] := by
  simp [natAttrs, List.range_succ]

theorem listAttr_natAttrs_none (g : ℕ → AttrName) (v : ℕ → AttrVal)
    (lo n : ℕ) (a : AttrName) (h : ∀ j, lo ≤ j → j < lo + n → g j ≠ a) :
    listAttr (natAttrs g v lo n) a = none := by
  induction n with
  | zero => rfl
  | succ m ih =>
    rw [natAttrs_succ, listAttr_append,
      ih (fun j hj1 hj2 => h j hj1 (by omega))]
    simp [listAttr, h (lo + m) (by omega) (by omega)]

theorem listAttr_natAttrs (g : ℕ → AttrName) (v : ℕ → AttrVal) (lo n i : ℕ)
    (hinj : ∀ a b, g a = g b → a = b) (h1 : lo ≤ i) (h2 : i < lo + n) :
    listAttr (natAttrs g v lo n) (g i) = some (v i) := by
  induction n with
  | zero => omega
  | succ m ih =>
    rw [natAttrs_succ, listAttr_append]
    by_cases hc : i < lo + m
    · rw [ih hc]
    · have hie : i = lo + m := by omega
      rw [listAttr_natAttrs_none g v lo m (g i)
        (fun j hj1 hj2 hja => by have := hinj j i hja; omega)]
      subst hie
      simp [listAttr]

theorem cdimName_inj (a b : ℕ) (h : cdimName a = cdimName b) : a = b := by
  unfold cdimName at h
  split_ifs at h <;> simp_all

theorem encodeCamera_name (s : GState) (k : ℕ) :
    (encodeCamera s k).name = ElemName.camera := by
  unfold encodeCamera
  split <;> rfl

theorem encodeCamera_attrCount (s : GState) (k : ℕ) (hk : 1 ≤ k) :
    (encodeCamera s k).attrCount = k := by
  unfold encodeCamera XElem.attrCount
  split
  · simp [natAttrs]
    omega
  · simp [natAttrs]

theorem updDim_updDim (k : ℕ) (f g : DimSlot → DimSlot) (t : GState) :
    updDim k f (updDim k g t) = updDim k (fun sl => f (g sl)) t := by
  unfold updDim
  congr 1
  funext j
  by_cases h : j = k <;> simp [h]

theorem camStep_polar (s : GState) (k i : ℕ) (t : GState)
    (hp : s.polarCoordinates = true) (hik : i < k) :
    camStep k (encodeCamera s k) i t =
      (setFromp k i ((s.dims k).fromp i) t, true) := by
  have he : encodeCamera s k =
      ⟨ElemName.camera,
        (AttrName.radius, AttrVal.num ((s.dims k).fromp 0)) ::
          natAttrs AttrName.theta (fun j => AttrVal.num ((s.dims k).fromp j))
            1 (k - 1)⟩ := by
    unfold encodeCamera
    rw [hp]
    simp
  rcases i with _ | m
  · have har : (encodeCamera s k).attr AttrName.radius =
        some (AttrVal.num ((s.dims k).fromp 0)) := by
      rw [he]
      rfl
    unfold camStep
    rw [har]
    rfl
  · have hth : (encodeCamera s k).attr (AttrName.theta (m + 1)) =
        some (AttrVal.num ((s.dims k).fromp (m + 1))) := by
      rw [he]
      show listAttr ((AttrName.radius, _) :: _) _ = _
      rw [listAttr]
      rw [if_neg (by simp)]
      exact listAttr_natAttrs AttrName.theta _ 1 (k - 1) (m + 1)
        (fun a b hab => by injection hab) (by omega) (by omega)
    have har : (encodeCamera s k).attr AttrName.radius =
        some (AttrVal.num ((s.dims k).fromp 0)) := by
      rw [he]
      rfl
    unfold camStep
    rw [har, hth]
    rfl

theorem camStep_cart (s : GState) (k i : ℕ) (t : GState)
    (hp : s.polarCoordinates = false) (hik : i < k) :
    camStep k (encodeCamera s k) i t =
      (setFromc k i ((s.dims k).fromc i) t, true) := by
  have he : encodeCamera s k =
      ⟨ElemName.camera,
        natAttrs cdimName (fun j => AttrVal.num ((s.dims k).fromc j)) 0 k⟩ := by
    unfold encodeCamera
    rw [hp]
    simp
  have har : (encodeCamera s k).attr AttrName.radius = none := by
    rw [he]
    show listAttr (natAttrs cdimName
      (fun j => AttrVal.num ((s.dims k).fromc j)) 0 k) AttrName.radius = none
    exact listAttr_natAttrs_none _ _ 0 k _
      (fun j _ _ => by unfold cdimName; split <;> simp)
  have hth : ∀ m, (encodeCamera s k).attr (AttrName.theta m) = none := by
    intro m
    rw [he]
    show listAttr (natAttrs cdimName
      (fun j => AttrVal.num ((s.dims k).fromc j)) 0 k) (AttrName.theta m) = none
    exact listAttr_natAttrs_none _ _ 0 k _
      (fun j _ _ => by unfold cdimName; split <;> simp)
  have hax : (encodeCamera s k).attr (cdimName i) =
      some (AttrVal.num ((s.dims k).fromc i)) := by
    rw [he]
    show listAttr (natAttrs cdimName
      (fun j => AttrVal.num ((s.dims k).fromc j)) 0 k) (cdimName i) =
      some (AttrVal.num ((s.dims k).fromc i))
    exact listAttr_natAttrs cdimName _ 0 k i cdimName_inj (by omega) (by omega)
  rcases i with _ | m
  · unfold camStep
    rw [har, hth 0]
    by_cases hc : 0 < cdimBound
    · have : cdimName 0 = AttrName.cart 0 := by
        unfold cdimName
        rw [if_pos hc]
      rw [if_pos hc, ← this, hax]
      rfl
    · have : cdimName 0 = AttrName.dIdx 0 := by
        unfold cdimName
        rw [if_neg hc]
      rw [if_neg hc, ← this, hax]
      rfl
  · unfold camStep
    rw [hth (m + 1)]
    by_cases hc : m + 1 < cdimBound
    · have : cdimName (m + 1) = AttrName.cart (m + 1) := by
        unfold cdimName
        rw [if_pos hc]
      rw [if_pos hc, ← this, hax]
      rfl
    · have : cdimName (m + 1) = AttrName.dIdx (m + 1) := by
        unfold cdimName
        rw [if_neg hc]
      rw [if_neg hc, ← this, hax]
      rfl

theorem camWriteN_zero (s : GState) (k : ℕ) (t : GState) :
    camWriteN s k 0 t = t := by
  unfold camWriteN updDim
  split_ifs <;> simp

theorem camWriteN_step_polar (s : GState) (k n : ℕ) (t : GState)
    (hp : s.polarCoordinates = true) :
    setFromp k n ((s.dims k).fromp n) (camWriteN s k n t) =
      camWriteN s k (n + 1) t := by
  unfold camWriteN setFromp
  rw [hp]
  simp only [if_true]
  rw [updDim_updDim]
  congr 1
  funext sl
  congr 1
  funext j
  by_cases h1 : j = n
  · subst h1
    simp
  · by_cases h2 : j < n
    · simp [h1, h2, (by omega : j < n + 1)]
    · rw [if_neg (by omega : ¬ (j < n + 1)), if_neg h1]
      show (if j < n then _ else _) = _
      rw [if_neg h2]

theorem camWriteN_step_cart (s : GState) (k n : ℕ) (t : GState)
    (hp : s.polarCoordinates = false) :
    setFromc k n ((s.dims k).fromc n) (camWriteN s k n t) =
      camWriteN s k (n + 1) t := by
  unfold camWriteN setFromc
  rw [hp]
  simp only [Bool.false_eq_true, if_false]
  rw [updDim_updDim]
  congr 1
  funext sl
  congr 1
  funext j
  by_cases h1 : j = n
  · subst h1
    simp
  · by_cases h2 : j < n
    · simp [h1, h2, (by omega : j < n + 1)]
    · rw [if_neg (by omega : ¬ (j < n + 1)), if_neg h1]
      show (if j < n then _ else _) = _
      rw [if_neg h2]

theorem camLoop_polar (s : GState) (k : ℕ) (hp : s.polarCoordinates = true) :
    ∀ n, n ≤ k → ∀ t : GState,
      camLoop k (encodeCamera s k) n t = (camWriteN s k n t, true) := by
  intro n
  induction n with
  | zero =>
    intro _ t
    rw [camWriteN_zero]
    rfl
  | succ m ih =>
    intro hm t
    show seqD (camLoop k (encodeCamera s k) m) (camStep k (encodeCamera s k) m) t
      = _
    unfold seqD
    rw [ih (by omega) t]
    show camStep k (encodeCamera s k) m (camWriteN s k m t) = _
    rw [camStep_polar s k m _ hp (by omega), camWriteN_step_polar s k m t hp]

theorem camLoop_cart (s : GState) (k : ℕ) (hp : s.polarCoordinates = false) :
    ∀ n, n ≤ k → ∀ t : GState,
      camLoop k (encodeCamera s k) n t = (camWriteN s k n t, true) := by
  intro n
  induction n with
  | zero =>
    intro _ t
    rw [camWriteN_zero]
    rfl
  | succ m ih =>
    intro hm t
    show seqD (camLoop k (encodeCamera s k) m) (camStep k (encodeCamera s k) m) t
      = _
    unfold seqD
    rw [ih (by omega) t]
    show camStep k (encodeCamera s k) m (camWriteN s k m t) = _
    rw [camStep_cart s k m _ hp (by omega), camWriteN_step_cart s k m t hp]

theorem camLoop_full (s : GState) (k : ℕ) (t : GState) :
    camLoop k (encodeCamera s k) k t = (camWrite s k t, true) := by
  have hw : camWrite s k t = camWriteN s k k t := rfl
  rw [hw]
  rcases hp : s.polarCoordinates
  · exact camLoop_cart s k hp k (le_refl k) t
  · exact camLoop_polar s k hp k (le_refl k) t

theorem metadata_succ (s : GState) (d : ℕ) :
    metadata s (d + 3) = encodeCamera s (d + 3) :: metadata s (d + 2) := rfl

theorem beqElem (a b : ElemName) : (a == b) = decide (a = b) := rfl

theorem camFilter_base (s : GState) (k : ℕ) (hk : 2 ≤ k) :
    camFilter k (encodeBase s) = [] := by
  unfold camFilter encodeBase
  rcases s.model with _ | m <;>
    simp [XElem.attrCount, rgbaAttrs, List.filter, beqElem,
      beq_false_of_ne (by omega : (1 : ℕ) ≠ k)]

theorem camFilter_metadata (s : GState) :
    ∀ (d k : ℕ), 2 ≤ k →
      camFilter k (metadata s d) =
        if 3 ≤ k ∧ k ≤ d then [encodeCamera s k] else []
  | 0, k, hk => by
    rw [if_neg (by omega)]
    exact camFilter_base s k hk
  | 1, k, hk => by
    rw [if_neg (by omega)]
    exact camFilter_base s k hk
  | 2, k, hk => by
    rw [if_neg (by omega)]
    exact camFilter_base s k hk
  | (d + 3), k, hk => by
    have ih := camFilter_metadata s (d + 2) k hk
    have hlen : (encodeCamera s (d + 3)).attrCount = d + 3 :=
      encodeCamera_attrCount s (d + 3) (by omega)
    rw [metadata_succ]
    unfold camFilter at ih ⊢
    rw [List.filter_cons]
    by_cases he : k = d + 3
    · subst he
      rw [if_pos (by simp [encodeCamera_name, hlen])]
      rw [ih, if_neg (by omega), if_pos (by omega)]
    · rw [if_neg (by
        simp only [encodeCamera_name, hlen, Bool.and_eq_true, beq_iff_eq]
        omega)]
      rw [ih]
      by_cases hc : 3 ≤ k ∧ k ≤ d + 2
      · rw [if_pos hc, if_pos (by omega)]
      · rw [if_neg hc, if_neg (by omega)]

theorem identFilter_base (s : GState) (k : ℕ) :
    identFilter k (encodeBase s) = [] := by
  unfold identFilter encodeBase
  rcases s.model with _ | m <;> simp [List.filter, beqElem]

theorem identFilter_metadata (s : GState) :
    ∀ (d k : ℕ), identFilter k (metadata s d) = []
  | 0, k => identFilter_base s k
  | 1, k => identFilter_base s k
  | 2, k => identFilter_base s k
  | (d + 3), k => by
    rw [metadata_succ]
    unfold identFilter
    rw [List.filter_cons, if_neg (by simp [encodeCamera_name, beqElem])]
    exact identFilter_metadata s (d + 2) k

theorem cellFilter_base (s : GState) (k : ℕ) :
    cellFilter k (encodeBase s) = [] := by
  unfold cellFilter encodeBase
  rcases s.model with _ | m <;> simp [List.filter, beqElem]

theorem cellFilter_metadata (s : GState) :
    ∀ (d k : ℕ), cellFilter k (metadata s d) = []
  | 0, k => cellFilter_base s k
  | 1, k => cellFilter_base s k
  | 2, k => cellFilter_base s k
  | (d + 3), k => by
    rw [metadata_succ]
    unfold cellFilter
    rw [List.filter_cons, if_neg (by simp [encodeCamera_name, beqElem])]
    exact cellFilter_metadata s (d + 2) k

theorem docAttr_cons (e : XElem) (doc : XDoc) (en : ElemName) (an : AttrName) :
    docAttr (e :: doc) en an =
      match (if e.name = en then e.attr an else none) with
      | some v => some v
      | none => docAttr doc en an := by
  unfold docAttr
  rcases h : (if e.name = en then e.attr an else none) with _ | v <;>
    simp [List.filterMap_cons, h]

theorem encodeCamera_attr_mode (s : GState) (k : ℕ) :
    (encodeCamera s k).attr AttrName.mode = none := by
  unfold encodeCamera
  split
  · show listAttr ((AttrName.radius, _) :: _) _ = _
    rw [listAttr, if_neg (by simp)]
    exact listAttr_natAttrs_none _ _ 1 (k - 1) _ (fun j _ _ => by simp)
  · show listAttr (natAttrs cdimName
      (fun i => AttrVal.num ((s.dims k).fromc i)) 0 k) AttrName.mode = none
    exact listAttr_natAttrs_none _ _ 0 k _
      (fun j _ _ => by unfold cdimName; split <;> simp)

theorem docAttr_metadata_camSkip (s : GState) (en : ElemName) (an : AttrName)
    (h : en ≠ ElemName.camera ∨ an = AttrName.mode) :
    ∀ d, docAttr (metadata s d) en an = docAttr (encodeBase s) en an
  | 0 => rfl
  | 1 => rfl
  | 2 => rfl
  | (d + 3) => by
    rw [metadata_succ, docAttr_cons]
    have hskip : (if (encodeCamera s (d + 3)).name = en then
        (encodeCamera s (d + 3)).attr an else none) = none := by
      rcases h with h | h
      · rw [if_neg (by rw [encodeCamera_name]; exact fun he => h he.symm)]
      · subst h
        by_cases he : (encodeCamera s (d + 3)).name = en
        · rw [if_pos he]
          exact encodeCamera_attr_mode s (d + 3)
        · rw [if_neg he]
    rw [hskip]
    exact docAttr_metadata_camSkip s en an h (d + 2)

theorem docAttr_metadata_mode (s : GState) (d : ℕ) :
    docAttr (metadata s d) ElemName.camera AttrName.mode =
      some (AttrVal.str (if s.polarCoordinates then "polar" else "cartesian")) := by
  rw [docAttr_metadata_camSkip s _ _ (Or.inr rfl) d]
  unfold docAttr encodeBase
  rcases s.model with _ | m <;> rfl

theorem encodeBase_scalar (s : GState) :
    docAttr (encodeBase s) ElemName.precision AttrName.polar =
      some (AttrVal.num s.parameter.polarPrecision) ∧
    docAttr (encodeBase s) ElemName.options AttrName.radius =
      some (AttrVal.num s.parameter.polarRadius) ∧
    docAttr (encodeBase s) ElemName.colourBackground AttrName.red =
      some (AttrVal.num s.background.red) ∧
    docAttr (encodeBase s) ElemName.colourBackground AttrName.green =
      some (AttrVal.num s.background.green) ∧
    docAttr (encodeBase s) ElemName.colourBackground AttrName.blue =
      some (AttrVal.num s.background.blue) ∧
    docAttr (encodeBase s) ElemName.colourBackground AttrName.alpha =
      some (AttrVal.num s.background.alpha) ∧
    docAttr (encodeBase s) ElemName.colourWireframe AttrName.red =
      some (AttrVal.num s.wireframe.red) ∧
    docAttr (encodeBase s) ElemName.colourWireframe AttrName.green =
      some (AttrVal.num s.wireframe.green) ∧
    docAttr (encodeBase s) ElemName.colourWireframe AttrName.blue =
      some (AttrVal.num s.wireframe.blue) ∧
    docAttr (encodeBase s) ElemName.colourWireframe AttrName.alpha =
      some (AttrVal.num s.wireframe.alpha) ∧
    docAttr (encodeBase s) ElemName.colourSurface AttrName.red =
      some (AttrVal.num s.surface.red) ∧
    docAttr (encodeBase s) ElemName.colourSurface AttrName.green =
      some (AttrVal.num s.surface.green) ∧
    docAttr (encodeBase s) ElemName.colourSurface AttrName.blue =
      some (AttrVal.num s.surface.blue) ∧
    docAttr (encodeBase s) ElemName.colourSurface AttrName.alpha =
      some (AttrVal.num s.surface.alpha) ∧
    docAttr (encodeBase s) ElemName.ifs AttrName.iterations = none ∧
    docAttr (encodeBase s) ElemName.ifs AttrName.seed = none ∧
    docAttr (encodeBase s) ElemName.ifs AttrName.functions = none ∧
    docAttr (encodeBase s) ElemName.ifs AttrName.preRotate = none ∧
    docAttr (encodeBase s) ElemName.ifs AttrName.postRotate = none ∧
    docAttr (encodeBase s) ElemName.flame AttrName.coefficients = none := by
  rcases hsm : s.model with _ | m <;>
    (unfold encodeBase; rw [hsm]) <;>
    exact ⟨rfl, rfl, rfl, rfl, rfl, rfl, rfl, rfl, rfl, rfl, rfl, rfl, rfl,
      rfl, rfl, rfl, rfl, rfl, rfl, rfl⟩

theorem parseDim_metadata (s t : GState) (d k : ℕ) (h3 : 3 ≤ k) (hkd : k ≤ d) :
    parseDim k (metadata s d) t = (camWrite s k t, true) := by
  unfold parseDim
  rw [camFilter_metadata s d k (by omega), if_pos ⟨h3, hkd⟩,
    identFilter_metadata s d k, cellFilter_metadata s d k]
  show seqD (foldD (fun e => camLoop k e k) [encodeCamera s k]) _ t = _
  simp only [seqD, foldD]
  rw [camLoop_full]
  rfl

theorem parseDim_metadata_two (s t : GState) (d : ℕ) :
    parseDim 2 (metadata s d) t = (t, true) := by
  unfold parseDim
  rw [camFilter_metadata s d 2 (by omega), if_neg (by omega),
    identFilter_metadata s d 2, cellFilter_metadata s d 2]
  rfl

theorem fixPoint_metadata (s : GState) (d : ℕ) (u : GState) :
    fixPoint (metadata s d) u = (fixApply s u, true) := by
  obtain ⟨e1, e2, e3, e4, e5, e6, e7, e8, e9, e10, e11, e12, e13, e14, e15,
    e16, e17, e18, e19, e20⟩ := encodeBase_scalar s
  have hsk : ∀ en an, en ≠ ElemName.camera →
      docAttr (metadata s d) en an = docAttr (encodeBase s) en an :=
    fun en an h => docAttr_metadata_camSkip s en an (Or.inl h) d
  rcases hp : s.polarCoordinates <;>
  · have hm := docAttr_metadata_mode s d
    rw [hp] at hm
    simp only [if_true, if_false, Bool.false_eq_true] at hm
    unfold fixPoint numField strFlag seqD
    rw [hm,
      hsk ElemName.precision AttrName.polar (by simp),
      hsk ElemName.options AttrName.radius (by simp),
      hsk ElemName.colourBackground AttrName.red (by simp),
      hsk ElemName.colourBackground AttrName.green (by simp),
      hsk ElemName.colourBackground AttrName.blue (by simp),
      hsk ElemName.colourBackground AttrName.alpha (by simp),
      hsk ElemName.colourWireframe AttrName.red (by simp),
      hsk ElemName.colourWireframe AttrName.green (by simp),
      hsk ElemName.colourWireframe AttrName.blue (by simp),
      hsk ElemName.colourWireframe AttrName.alpha (by simp),
      hsk ElemName.colourSurface AttrName.red (by simp),
      hsk ElemName.colourSurface AttrName.green (by simp),
      hsk ElemName.colourSurface AttrName.blue (by simp),
      hsk ElemName.colourSurface AttrName.alpha (by simp),
      hsk ElemName.ifs AttrName.iterations (by simp),
      hsk ElemName.ifs AttrName.seed (by simp),
      hsk ElemName.ifs AttrName.functions (by simp),
      hsk ElemName.ifs AttrName.preRotate (by simp),
      hsk ElemName.ifs AttrName.postRotate (by simp),
      hsk ElemName.flame AttrName.coefficients (by simp),
      e1, e2, e3, e4, e5, e6, e7, e8, e9, e10, e11, e12, e13, e14, e15, e16,
      e17, e18, e19, e20]
    dsimp only [stold]
    unfold fixApply
    rw [hp]
    rfl

theorem parseXML_metadata (s : GState) :
    ∀ (c d : ℕ), c ≤ d → ∀ t : GState,
      parseXML c (metadata s d) t = (fixApply s (camWriteAll s c t), true)
  | 0, d, h, t => by
    show fixPoint (metadata s d) t = _
    rw [fixPoint_metadata]
    rfl
  | 1, d, h, t => by
    show fixPoint (metadata s d) t = _
    rw [fixPoint_metadata]
    rfl
  | 2, d, h, t => by
    show seqD (parseDim 2 (metadata s d)) (parseXML 1 (metadata s d)) t = _
    unfold seqD
    rw [parseDim_metadata_two s t d]
    exact parseXML_metadata s 1 d (by omega) t
  | (c + 3), d, h, t => by
    show seqD (parseDim (c + 3) (metadata s d)) (parseXML (c + 2) (metadata s d))
      t = _
    unfold seqD
    rw [parseDim_metadata s t d (c + 3) (by omega) h]
    exact parseXML_metadata s (c + 2) d (by omega) (camWrite s (c + 3) t)

theorem camWrite_dims_ne (s : GState) (j : ℕ) (u : GState) (a : ℕ)
    (h : a ≠ j) : (camWrite s j u).dims a = u.dims a := by
  unfold camWrite
  split <;> exact updDim_dims_ne j a _ u h

theorem camWrite_matrix (s : GState) (j : ℕ) (u : GState) (a b c : ℕ) :
    ((camWrite s j u).dims a).matrix b c = ((u.dims a).matrix b c) := by
  unfold camWrite
  split <;> (by_cases h : a = j <;> simp [updDim, h])

theorem camWrite_base (s : GState) (j : ℕ) (u : GState) :
    (camWrite s j u).polarCoordinates = u.polarCoordinates ∧
    (camWrite s j u).parameter = u.parameter ∧
    (camWrite s j u).exportMultiplier = u.exportMultiplier ∧
    (camWrite s j u).background = u.background ∧
    (camWrite s j u).wireframe = u.wireframe ∧
    (camWrite s j u).surface = u.surface ∧
    (camWrite s j u).model = u.model ∧
    (camWrite s j u).idpfx = u.idpfx := by
  unfold camWrite
  split <;> exact ⟨rfl, rfl, rfl, rfl, rfl, rfl, rfl, rfl⟩

theorem camWrite_fromp_lt (s : GState) (j : ℕ) (u : GState) (i : ℕ)
    (hp : s.polarCoordinates = true) (hij : i < j) :
    ((camWrite s j u).dims j).fromp i = ((s.dims j).fromp i) := by
  unfold camWrite
  rw [hp]
  simp [updDim, hij]

theorem camWrite_fromc_lt (s : GState) (j : ℕ) (u : GState) (i : ℕ)
    (hp : s.polarCoordinates = false) (hij : i < j) :
    ((camWrite s j u).dims j).fromc i = ((s.dims j).fromc i) := by
  unfold camWrite
  rw [hp]
  simp [updDim, hij]

theorem camWriteAll_dims_high (s : GState) :
    ∀ (c : ℕ) (u : GState) (a : ℕ), c < a →
      (camWriteAll s c u).dims a = u.dims a
  | 0, u, a, h => rfl
  | 1, u, a, h => rfl
  | 2, u, a, h => rfl
  | (c + 3), u, a, h => by
    show (camWriteAll s (c + 2) (camWrite s (c + 3) u)).dims a = _
    rw [camWriteAll_dims_high s (c + 2) _ a (by omega),
      camWrite_dims_ne s (c + 3) u a (by omega)]

theorem camWriteAll_matrix (s : GState) :
    ∀ (c : ℕ) (u : GState) (a b e : ℕ),
      ((camWriteAll s c u).dims a).matrix b e = ((u.dims a).matrix b e)
  | 0, u, a, b, e => rfl
  | 1, u, a, b, e => rfl
  | 2, u, a, b, e => rfl
  | (c + 3), u, a, b, e => by
    show ((camWriteAll s (c + 2) (camWrite s (c + 3) u)).dims a).matrix b e = _
    rw [camWriteAll_matrix s (c + 2) _ a b e, camWrite_matrix]

theorem camWriteAll_base (s : GState) :
    ∀ (c : ℕ) (u : GState),
      (camWriteAll s c u).exportMultiplier = u.exportMultiplier ∧
      (camWriteAll s c u).idpfx = u.idpfx
  | 0, u => ⟨rfl, rfl⟩
  | 1, u => ⟨rfl, rfl⟩
  | 2, u => ⟨rfl, rfl⟩
  | (c + 3), u => by
    show (camWriteAll s (c + 2) (camWrite s (c + 3) u)).exportMultiplier = _ ∧
      (camWriteAll s (c + 2) (camWrite s (c + 3) u)).idpfx = _
    have h1 := camWriteAll_base s (c + 2) (camWrite s (c + 3) u)
    have h2 := camWrite_base s (c + 3) u
    exact ⟨h1.1.trans h2.2.2.1, h1.2.trans h2.2.2.2.2.2.2.2⟩

theorem camWriteAll_fromp (s : GState) :
    ∀ (c k i : ℕ), 3 ≤ k → k ≤ c → i < k →
      s.polarCoordinates = true → ∀ u : GState,
      ((camWriteAll s c u).dims k).fromp i = ((s.dims k).fromp i)
  | 0, k, i, h3, hkc, _, _, u => by omega
  | 1, k, i, h3, hkc, _, _, u => by omega
  | 2, k, i, h3, hkc, _, _, u => by omega
  | (c + 3), k, i, h3, hkc, hik, hp, u => by
    show ((camWriteAll s (c + 2) (camWrite s (c + 3) u)).dims k).fromp i = _
    by_cases he : k = c + 3
    · subst he
      rw [camWriteAll_dims_high s (c + 2) _ (c + 3) (by omega)]
      exact camWrite_fromp_lt s (c + 3) u i hp hik
    · exact camWriteAll_fromp s (c + 2) k i h3 (by omega) hik hp _

theorem camWriteAll_fromc (s : GState) :
    ∀ (c k i : ℕ), 3 ≤ k → k ≤ c → i < k →
      s.polarCoordinates = false → ∀ u : GState,
      ((camWriteAll s c u).dims k).fromc i = ((s.dims k).fromc i)
  | 0, k, i, h3, hkc, _, _, u => by omega
  | 1, k, i, h3, hkc, _, _, u => by omega
  | 2, k, i, h3, hkc, _, _, u => by omega
  | (c + 3), k, i, h3, hkc, hik, hp, u => by
    show ((camWriteAll s (c + 2) (camWrite s (c + 3) u)).dims k).fromc i = _
    by_cases he : k = c + 3
    · subst he
      rw [camWriteAll_dims_high s (c + 2) _ (c + 3) (by omega)]
      exact camWrite_fromc_lt s (c + 3) u i hp hik
    · exact camWriteAll_fromc s (c + 2) k i h3 (by omega) hik hp _

theorem encodeBase_coordinates (s : GState) :
    docAttr (encodeBase s) ElemName.coordinates AttrName.format = none := by
  unfold encodeBase docAttr
  rcases s.model with _ | m <;> rfl

theorem findModelElem_metadata (s : GState) :
    ∀ d, findModelElem (metadata s d) = findModelElem (encodeBase s)
  | 0 => rfl
  | 1 => rfl
  | 2 => rfl
  | (d + 3) => by
    rw [metadata_succ]
    unfold findModelElem
    rw [List.find?_cons_of_neg _ (by simp [encodeCamera_name, beqElem])]
    exact findModelElem_metadata s (d + 2)

theorem qtrunc_natCast (n : ℕ) : qtrunc ((n : ℚ)) = (n : Int) := by
  unfold qtrunc
  rw [Rat.num_natCast, Rat.den_natCast]
  exact Int.tdiv_one _

theorem parseModelXMLReq_metadata (s : GState) (d : ℕ) (m : Renderer)
    (hm : s.model = some m) (hrd : m.renderDepth ≠ 0) :
    parseModelXMLReq (metadata s d) =
      ModelReq.found "cartesian" m.rid (m.depth : Int) (m.renderDepth : Int) := by
  unfold parseModelXMLReq
  rw [docAttr_metadata_camSkip s ElemName.coordinates AttrName.format
      (Or.inl (by simp)) d,
    encodeBase_coordinates, findModelElem_metadata s d]
  unfold findModelElem encodeBase
  rw [hm]
  show ModelReq.found "cartesian" m.rid (qtrunc ((m.depth : ℕ) : ℚ))
      (xmlForwardRd m.rid (qtrunc ((m.depth : ℕ) : ℚ))
        (some (qtrunc ((m.renderDepth : ℕ) : ℚ)))) =
    ModelReq.found "cartesian" m.rid (m.depth : Int) (m.renderDepth : Int)
  rw [qtrunc_natCast, qtrunc_natCast]
  have hne : ((m.renderDepth : Int)) ≠ 0 := by
    rw [ne_eq, Int.natCast_eq_zero]
    exact hrd
  simp [xmlForwardRd, hne]

/-- C1, counterexample: the round trip does not reproduce every option
field — the export multiplier is written by `metadata()` but never read
back by any decode path, so a state with export multiplier 7 decodes
into a state that keeps the target's prior value 2. -/
theorem xml_roundtrip_counterexample :
    rtS.exportMultiplier = 7 ∧
    (parseXML 4 (metadata rtS 4) defState).1.exportMultiplier = 2 ∧
    ((7 : ℚ) ≠ 2) :=
  ⟨rfl, rfl, by norm_num⟩

/-- C1, amended: decoding the document produced by `metadata()`
reproduces, at every dimension, the authoritative camera representation
(polar coordinates in polar mode, cartesian in cartesian mode), the
camera mode, and the three colours; the polar radius and polar precision
are re-read, but into the DISTINCT `radius`/`precision` parameter
fields; the transformation matrices, the export multiplier and the
id-prefix of the decode target are left at their prior values (the first
is never encoded, the last two never decoded); the separate model decode
recovers exactly the bound renderer's id/depth/render-depth triple (for
a non-zero render-depth) in the default cartesian format.  This covers
the XML attribute-tree format; the core contains no JSON encoder. -/
theorem xml_roundtrip_amended (s t : GState) (d k i : ℕ) (m : Renderer)
    (hk3 : 3 ≤ k) (hkd : k ≤ d) (hik : i < k)
    (hm : s.model = some m) (hrd : m.renderDepth ≠ 0) :
    (parseXML d (metadata s d) t).2 = true ∧
    (parseXML d (metadata s d) t).1.polarCoordinates = s.polarCoordinates ∧
    (s.polarCoordinates = true →
      ((parseXML d (metadata s d) t).1.dims k).fromp i = ((s.dims k).fromp i)) ∧
    (s.polarCoordinates = false →
      ((parseXML d (metadata s d) t).1.dims k).fromc i = ((s.dims k).fromc i)) ∧
    (parseXML d (metadata s d) t).1.background = s.background ∧
    (parseXML d (metadata s d) t).1.wireframe = s.wireframe ∧
    (parseXML d (metadata s d) t).1.surface = s.surface ∧
    (parseXML d (metadata s d) t).1.parameter.radius =
      s.parameter.polarRadius ∧
    (parseXML d (metadata s d) t).1.parameter.precision =
      s.parameter.polarPrecision ∧
    (∀ a b c, ((parseXML d (metadata s d) t).1.dims a).matrix b c =
      ((t.dims a).matrix b c)) ∧
    (parseXML d (metadata s d) t).1.exportMultiplier = t.exportMultiplier ∧
    (parseXML d (metadata s d) t).1.idpfx = t.idpfx ∧
    parseModelXMLReq (metadata s d) =
      ModelReq.found "cartesian" m.rid (m.depth : Int) (m.renderDepth : Int) := by
  rw [parseXML_metadata s d d (le_refl d) t]
  refine ⟨rfl, rfl, ?_, ?_, rfl, rfl, rfl, rfl, rfl, ?_, ?_, ?_, ?_⟩
  · intro hp
    exact camWriteAll_fromp s d k i hk3 hkd hik hp t
  · intro hp
    exact camWriteAll_fromc s d k i hk3 hkd hik hp t
  · intro a b c
    exact camWriteAll_matrix s d t a b c
  · exact (camWriteAll_base s d t).1
  · exact (camWriteAll_base s d t).2
  · exact parseModelXMLReq_metadata s d m hm hrd

/-- C1, witness for the amended round trip at a concrete state of top
dimension 4. -/
theorem xml_roundtrip_amended_witness :
    (parseXML 4 (metadata rtS 4) defState).2 = true ∧
    ((parseXML 4 (metadata rtS 4) defState).1.dims 3).fromp 1 =
      ((rtS.dims 3).fromp 1) ∧
    (parseXML 4 (metadata rtS 4) defState).1.background = rtS.background := by
  have h := xml_roundtrip_amended rtS defState 4 3 1 ⟨"cube", 4, 4⟩
    (by norm_num) (by norm_num) (by norm_num) rfl (by norm_num)
  exact ⟨h.1, h.2.2.1 rfl, h.2.2.2.2.1⟩
